import Mathlib

/-! Program tail-n-veil-n-mail-import: filter registration and backfill.

A shallow embedding of `import.go`.  The program is one `main` function that
talks to a relational store; the store is embedded as a record of four row
lists, every SQL statement of the source as a pure function on those lists,
and `main` as a composition of the consecutive blocks of its body, each
block a function from the process state to either "continue" or "the
process ended here".

Everything the program receives from outside (parsed flags, the decoded
configuration, standard input, the regular-expression compiler, and the
errors the database driver may return at each call) is a field of `Env`.
-/

set_option autoImplicit false

namespace Import

/-! ## Data model: the four tables -/

/-- Row of `buckets(id, name, eat_it, report_it)`.  The id column holds what the
Go variable `id int32` can hold; no arithmetic is done on ids. -/
structure Bucket where
  id : Int
  name : String
  eat_it : Bool
  report_it : Bool
deriving DecidableEq

/-- Row of `filters(bucket_id, filter, report)`. -/
structure Filter where
  bucket_id : Int
  filter : String
  report : Bool
deriving DecidableEq

/-- Row of `onlyon(bucket_id, host)`. -/
structure OnlyOn where
  bucket_id : Int
  host : String
deriving DecidableEq

/-- Row of `events(event, bucket_id)`; `bucket_id = none` is SQL `NULL`. -/
structure Event where
  event : String
  bucket_id : Option Int
deriving DecidableEq

/-- Contents of the database: each table is the list of its rows, a new row
goes to the end. -/
structure Store where
  buckets : List Bucket
  filters : List Filter
  onlyon : List OnlyOn
  events : List Event
deriving DecidableEq

/-- The `Configuration` struct of the source. -/
structure Configuration where
  DBConn : List String
deriving DecidableEq

/-! ## The SQL statements of the source -/

/-- Statement `select id from buckets where name = $1` read with
`QueryRow(..).Scan(&id)`: the id of the first row with that name, `none`
standing for `sql.ErrNoRows`. -/
def selectBucketId (buckets : List Bucket) (name : String) : Option Int :=
  (buckets.find? (fun b => decide (b.name = name))).map (fun b => b.id)

/-- Statement `INSERT INTO buckets(name, eat_it, report_it) VALUES($1, $2, $3)
RETURNING id`: `id` is the value the store gives the new row, and the one
the statement returns. -/
def insertBucket (buckets : List Bucket) (id : Int) (name : String)
    (eat_it report_it : Bool) : List Bucket :=
  buckets ++ [{ id := id, name := name, eat_it := eat_it, report_it := report_it }]

/-- Statement `INSERT INTO filters(bucket_id, filter, report) VALUES($1, $2, $3)`. -/
def insertFilter (filters : List Filter) (bucket_id : Int) (filter : String)
    (report : Bool) : List Filter :=
  filters ++ [{ bucket_id := bucket_id, filter := filter, report := report }]

/-- Statement `INSERT INTO onlyon(bucket_id, host) VALUES($1, $2)`. -/
def insertOnlyOn (onlyon : List OnlyOn) (bucket_id : Int) (host : String) : List OnlyOn :=
  onlyon ++ [{ bucket_id := bucket_id, host := host }]

/-- Statement `select distinct event from events where bucket_id is null`, in
table order (the order in which the cursor hands the rows out is `Env.order`). -/
def selectDistinctUnclassified (events : List Event) : List String :=
  ((events.filter (fun e => decide (e.bucket_id = none))).map (fun e => e.event)).dedup

/-- Statement `update events set bucket_id=$1 where bucket_id is null and event=$2`. -/
def updateEvents (events : List Event) (id : Int) (event : String) : List Event :=
  events.map (fun e =>
    if e.bucket_id = none ∧ e.event = event then { e with bucket_id := some id } else e)

/-! ## Library functions the source calls -/

/-- Go `strings.Split(s, sep)` for a one-character separator, on the
characters of `s`; `cur` holds the piece being read, reversed. -/
def splitChars (sep : Char) : List Char → List Char → List String
  | cur, [] => [String.mk cur.reverse]
  | cur, c :: cs =>
    if c = sep then String.mk cur.reverse :: splitChars sep [] cs
    else splitChars sep (c :: cur) cs

/-- Go `strings.Split(value, ",")`. -/
def splitComma (value : String) : List String :=
  splitChars ',' [] value.data

/-- Go `strconv.Itoa` on a counter (never negative here). -/
def Itoa (n : Nat) : String :=
  toString n

/-- Method `hostList.Set`: every comma-separated piece of `value` is appended to
the list. -/
def hostList.Set (list : List String) (value : String) : List String :=
  (splitComma value).foldl (fun l h => l ++ [h]) list

/-- A compiled regular expression, seen through `MatchString`. -/
abbrev Regexp := String → Bool

/-- A `bufio.Scanner` over standard input, line by line.  The scanner keeps
the first read error it meets; it meets one either inside `Scan` when the
input is used up, or while it hands out a last line that the error cut
short. -/
structure Scanner where
  /-- lines not read yet -/
  rest : List String
  /-- the token of the last `Scan` -/
  tok : String
  /-- the read error that ends the input, `none` for a plain end of file -/
  fail : Option String
  /-- whether that error struck inside the last line (a line without its end) -/
  cut : Bool
  /-- the error the scanner has met so far -/
  err : Option String

/-- Method `scanner.Scan()`: whether a line was read, and the scanner
afterwards.  A complete line is handed out with no error; the last line is
handed out together with the read error when the error cut it short; with no
line left `Scan` returns false and the read error, if any, is kept. -/
def Scanner.Scan (s : Scanner) : Bool × Scanner :=
  match s.rest with
  | [] => (false, { s with tok := "", err := if s.err = none then s.fail else s.err })
  | l :: ls =>
    (true, { s with
      rest := ls
      tok := l
      err := if s.err = none ∧ ls = [] ∧ s.cut = true then s.fail else s.err })

/-- Method `scanner.Text()`. -/
def Scanner.Text (s : Scanner) : String :=
  s.tok

/-- Method `scanner.Err()`: the error the scanner has met, `none` also after a
plain end of file. -/
def Scanner.Err (s : Scanner) : Option String :=
  s.err

/-! ## Environment and process state -/

/-- Everything a run receives from outside.  An error is the text of the Go
`error` value, `none` is `nil`. -/
structure Env where
  /-- value of `len(os.Args)` -/
  nargs : Nat
  configFileFlag : String
  bucketName : String
  bucketFilter : String
  testIt : Bool
  eatIt : Bool
  reportIt : Bool
  updateCounts : Bool
  apply : Bool
  /-- the values of the `-onlyOn` flags, in command-line order -/
  onlyOn : List String
  /-- error of `os.Open` on the configuration file -/
  openErr : Option String
  /-- the variable `configuration` after `decoder.Decode(&configuration)`;
  `none` is the nil pointer a JSON `null` leaves there -/
  configuration : Option Configuration
  /-- error of `sql.Open` -/
  sqlOpenErr : Option String
  /-- lines of standard input -/
  stdin : List String
  /-- read error that ends standard input, `none` for a plain end of file -/
  stdinErr : Option String
  /-- whether that error struck inside the last line of standard input -/
  stdinCut : Bool
  /-- function `regexp.Compile` -/
  compile : String → Except String Regexp
  /-- error of `db.Begin` -/
  beginErr : Option String
  /-- error of the bucket lookup other than `sql.ErrNoRows` -/
  lookupErr : Option String
  /-- error of the bucket insert -/
  bucketInsertErr : Option String
  /-- id the store gives a bucket row inserted by this run -/
  newId : Int
  /-- error of the filter insert -/
  filterInsertErr : Option String
  /-- error of the insert of host number `h` -/
  hostInsertErr : Nat → Option String
  /-- error of the query for unclassified events -/
  queryErr : Option String
  /-- order in which the cursor hands out the rows of the query -/
  order : List String → List String
  /-- error of `rows.Scan` on row number `i` -/
  scanErr : Nat → Option String
  /-- error of the update issued for row number `i` -/
  updateErr : Nat → Option String
  /-- error of `rows.Err()`: the cursor breaks after handing out that many rows -/
  rowsErr : Option (Nat × String)
  /-- error of `tx.Commit` -/
  commitErr : Option String

/-- Variable `hostListFlag` once `flag.Parse` has called `Set` for every `-onlyOn`. -/
def Env.hostListFlag (env : Env) : List String :=
  env.onlyOn.foldl hostList.Set []

/-- Fallible steps of a run that touch the database. -/
inductive Op where
  | txBegin
  | selectBucket (name : String)
  | insertBucket (name : String) (eat_it report_it : Bool)
  | insertFilter (bucket_id : Int) (filter : String) (report : Bool)
  | insertOnlyOn (bucket_id : Int) (host : String)
  | selectEvents
  | rowsScan (row : Nat)
  | updateEvents (bucket_id : Int) (event : String)
  | rowsErr
  | txCommit
deriving DecidableEq

/-- Observable state of the process: what it printed, the database steps it
took (with `true` for a step that returned no error), every value it gave
the spinner suffix together with the counters it was built from, and the two
counters of the matching loop (Go `int`, counting rows of one cursor, far
below the 64-bit range). -/
structure Proc where
  out : List String
  log : List (Op × Bool)
  suffixes : List String
  /-- the values of `matches` and `matchables` at each assignment to the
  spinner suffix, oldest first -/
  emitted : List (Nat × Nat)
  /-- the variable `matches` of the source -/
  nmatches : Nat
  matchables : Nat
deriving DecidableEq

/-- A call of `fmt.Println` or `fmt.Print` with one text. -/
def Proc.print (p : Proc) (s : String) : Proc :=
  { p with out := p.out ++ [s] }

/-- Record a database step and whether it succeeded. -/
def Proc.call (p : Proc) (op : Op) (ok : Bool) : Proc :=
  { p with log := p.log ++ [(op, ok)] }

/-- The statement `matchables++`. -/
def Proc.incMatchables (p : Proc) : Proc :=
  { p with matchables := p.matchables + 1 }

/-- The statement `matches++`. -/
def Proc.incMatches (p : Proc) : Proc :=
  { p with nmatches := p.nmatches + 1 }

/-- The statements `matches := 0` and `matchables := 0`. -/
def Proc.resetCounters (p : Proc) : Proc :=
  { p with nmatches := 0, matchables := 0 }

/-- The text `" (filter matched " + strconv.Itoa(matches) + " of " +
strconv.Itoa(matchables) + ")"`. -/
def suffixText (nmatches matchables : Nat) : String :=
  " (filter matched " ++ Itoa nmatches ++ " of " ++ Itoa matchables ++ ")"

/-- The assignment `s.Suffix = " (filter matched " + ... + ")"`. -/
def Proc.setSuffix (p : Proc) : Proc :=
  { p with
    suffixes := p.suffixes ++ [suffixText p.nmatches p.matchables]
    emitted := p.emitted ++ [(p.nmatches, p.matchables)] }

/-- How the process ended. -/
inductive Exit where
  /-- a call of `os.Exit(n)` -/
  | code (n : Nat)
  /-- a run-time panic of the Go runtime -/
  | panic (msg : String)
  /-- the function `main` returned -/
  | returned
deriving DecidableEq

/-- Result of one block of `main`: go on with a value, or the process ended. -/
inductive Step (α : Type) where
  | next (a : α) (p : Proc)
  | stop (e : Exit) (p : Proc)
deriving DecidableEq

/-- The process state a block ends in. -/
def Step.proc {α : Type} : Step α → Proc
  | .next _ p => p
  | .stop _ p => p

/-! ## The blocks of `main`, in source order -/

/-- Lines 57-81: the usage exit, then the configuration file is opened and
decoded (the error of `Decode` is dropped by the source) and the database
handle is made from `configuration.DBConn[0]`.  Returns that connection
string.  (`flag.PrintDefaults` writes to standard error, not to `out`.) -/
def loadConfig (env : Env) (p : Proc) : Step String :=
  if env.nargs = 1 then .stop (.code 0) p
  else if env.configFileFlag = "" then
    .stop (.code 1) (p.print "I need a config file!")
  else
    match env.openErr with
    | some err => .stop (.code 2) (p.print ("opening config file: " ++ err))
    | none =>
      match env.configuration with
      | none => .stop (.panic "runtime error: invalid memory address or nil pointer dereference") p
      | some configuration =>
        match configuration.DBConn with
        | [] => .stop (.panic "runtime error: index out of range [0] with length 0") p
        | conn :: _ =>
          match env.sqlOpenErr with
          | some err => .stop (.code 2) (p.print ("couldn't connect to db " ++ err))
          | none => .next conn p

/-- Lines 83-100: the bucket name must be given; an empty `-bucketFilter` is
replaced by the first line of standard input.  Returns the filter and the
scanner. -/
def readFilter (env : Env) (p : Proc) : Step (String × Scanner) :=
  let scanner : Scanner :=
    { rest := env.stdin, tok := "", fail := env.stdinErr, cut := env.stdinCut, err := none }
  if env.bucketName = "" then
    .stop (.code 1) (p.print "I need a bucket name!")
  else if env.bucketFilter = "" then
    let p := p.print "I need a bucket filter, so give me one now: "
    let scanner := scanner.Scan.2
    let line := scanner.Text
    match scanner.Err with
    | some err => .stop (.code 2) (p.print ("couldn't read a filter from stdin " ++ err))
    | none => .next (line, scanner) p
  else .next (env.bucketFilter, scanner) p

/-- Lines 112-118: the loop `for scanner.Scan()` over the lines still to read,
each pass doing `testThis = testThis + scanner.Text()` and then checking
`scanner.Err()`.  Returns the text, or the read error seen inside the loop;
what `Scan` meets when it returns false is not looked at. -/
def readTest : Scanner → List String → String → Except String String
  | _, [], testThis => .ok testThis
  | scanner, l :: ls, testThis =>
    let scanner := ({ scanner with rest := l :: ls } : Scanner).Scan.2
    let testThis := testThis ++ scanner.Text
    match scanner.Err with
    | some err => .error err
    | none => readTest scanner ls testThis

/-- Lines 102-124: the filter is compiled; with `-testData` the lines left on
standard input are concatenated and the compiled filter must match them.
Returns the compiled filter. -/
def validate (env : Env) (bucketFilter : String) (scanner : Scanner) (p : Proc) :
    Step Regexp :=
  match env.compile bucketFilter with
  | .error err =>
    .stop (.code 2) (p.print ("regex compile error for " ++ bucketFilter ++ " " ++ err))
  | .ok re =>
    if env.testIt then
      let p := p.print
        "Give me a test line to make sure the regex you gave me does what you want it to:"
      match readTest scanner scanner.rest "" with
      | .error err => .stop (.code 2) (p.print ("couldn't read a test line from stdin " ++ err))
      | .ok testThis =>
        if re testThis then .next re p
        else .stop (.code 4) (p.print ("Looks like your regex '" ++ bucketFilter ++
          "' doesn't work for your test case of '" ++ testThis ++ "'!"))
    else .next re p

/-- Lines 126-130: `db.Begin()`.  The transaction starts as a private copy of
the committed store. -/
def beginTx (env : Env) (db : Store) (p : Proc) : Step Store :=
  match env.beginErr with
  | some err =>
    .stop (.code 3) ((p.call .txBegin false).print
      ("ruh-oh, couldn't start transaction to insert new bucket filter " ++ err))
  | none => .next db (p.call .txBegin true)

/-- Lines 134-150: find the bucket by name, or make it.  Returns the bucket id
and the transaction's store. -/
def resolveBucket (env : Env) (bucketFilter : String) (tx : Store) (p : Proc) :
    Step (Int × Store) :=
  match env.lookupErr with
  | some err =>
    .stop (.code 3) ((p.call (.selectBucket env.bucketName) false).print
      ("couldn't search for existing bucket " ++ err))
  | none =>
    let p := p.call (.selectBucket env.bucketName) true
    match selectBucketId tx.buckets env.bucketName with
    | some id =>
      .next (id, tx) (p.print ("Adding to bucket called \" " ++ env.bucketName ++
        " \"using filter \" " ++ bucketFilter ++ " \"..."))
    | none =>
      match env.bucketInsertErr with
      | some err =>
        .stop (.code 3) ((p.call (.insertBucket env.bucketName env.eatIt env.reportIt) false).print
          ("couldn't insert new bucket " ++ err))
      | none =>
        let p := p.call (.insertBucket env.bucketName env.eatIt env.reportIt) true
        let buckets := insertBucket tx.buckets env.newId env.bucketName env.eatIt env.reportIt
        .next (env.newId, { tx with buckets := buckets })
          (p.print ("Making a new bucket called \" " ++ env.bucketName ++
            " \"using filter \" " ++ bucketFilter ++ " \"..."))

/-- Lines 159-167: the loop `for h := 0; h < len(hostListFlag); h++` over the
hosts from index `h` on. -/
def insertHosts (env : Env) (id : Int) : Nat → List String → Store → Proc → Step Store
  | _, [], tx, p => .next tx p
  | h, host :: hosts, tx, p =>
    match env.hostInsertErr h with
    | some err =>
      .stop (.code 3) ((p.call (.insertOnlyOn id host) false).print
        ("couldn't insert new bucket host restriction " ++ err))
    | none =>
      insertHosts env id (h + 1) hosts { tx with onlyon := insertOnlyOn tx.onlyon id host }
        (p.call (.insertOnlyOn id host) true)

/-- Lines 151-167: one filter row, then one `onlyon` row for each host. -/
def registerFilter (env : Env) (bucketFilter : String) (id : Int) (tx : Store) (p : Proc) :
    Step Store :=
  let p := if 0 < env.hostListFlag.length then
      p.print (".... but only for " ++ ", ".intercalate env.hostListFlag)
    else p
  match env.filterInsertErr with
  | some err =>
    .stop (.code 3) ((p.call (.insertFilter id bucketFilter env.updateCounts) false).print
      ("couldn't insert new bucket filter " ++ err))
  | none =>
    insertHosts env id 0 env.hostListFlag
      { tx with filters := insertFilter tx.filters id bucketFilter env.updateCounts }
      (p.call (.insertFilter id bucketFilter env.updateCounts) true)

/-- Lines 187-209: the loop `for rows.Next()` over the rows the cursor still
holds, `i` being the number of the next row.  The counters live in the
process state. -/
def matchLoop (env : Env) (re : Regexp) (id : Int) : Nat → List String → Store → Proc →
    Step Store
  | _, [], tx, p => .next tx p
  | i, event :: rows, tx, p =>
    match env.scanErr i with
    | some err =>
      .stop (.code 3) ((p.call (.rowsScan i) false).print ("couldn't read existing event " ++ err))
    | none =>
      let p := (p.call (.rowsScan i) true).incMatchables
      if re event then
        let p := p.incMatches
        match env.updateErr i with
        | some err =>
          .stop (.code 3) ((p.call (.updateEvents id event) false).print
            ("couldn't updated matching events " ++ err))
        | none =>
          matchLoop env re id (i + 1) rows { tx with events := updateEvents tx.events id event }
            (p.call (.updateEvents id event) true).setSuffix
      else matchLoop env re id (i + 1) rows tx p.setSuffix

/-- Rows the cursor of `db.Query` hands out before `rows.Next()` returns false:
the distinct unclassified payloads of the committed store (the query runs on
`db`, not on `tx`), cut short when the cursor breaks. -/
def cursorRows (env : Env) (db : Store) : List String :=
  match env.rowsErr with
  | some (k, _) => (env.order (selectDistinctUnclassified db.events)).take k
  | none => env.order (selectDistinctUnclassified db.events)

/-- Lines 169-219: with `-apply`, every distinct unclassified payload is tested
and the events of a matching payload are given the bucket id. -/
def backfill (env : Env) (re : Regexp) (id : Int) (db tx : Store) (p : Proc) : Step Store :=
  if env.apply then
    match env.queryErr with
    | some err =>
      .stop (.code 3) ((p.call .selectEvents false).print
        ("couldn't find unclassified events " ++ err))
    | none =>
      let p := ((p.call .selectEvents true).print "").resetCounters
      match matchLoop env re id 0 (cursorRows env db) tx p with
      | .stop e p => .stop e p
      | .next tx p =>
        match env.rowsErr with
        | some (_, err) =>
          .stop (.code 3) ((p.call .rowsErr false).print
            ("couldn't walk rows while looking for matching events " ++ err))
        | none => .next tx (p.call .rowsErr true).setSuffix
  else .next tx p

/-- What a run leaves behind: how the process ended, its observable state, and
the committed contents of the database. -/
structure Result where
  exit : Exit
  proc : Proc
  db : Store
deriving DecidableEq

/-- Lines 221-229: `tx.Commit()`; only here does the transaction's store
become the committed one, and a commit that returns an error has committed
nothing. -/
def commitTx (env : Env) (db tx : Store) (p : Proc) : Result :=
  match env.commitErr with
  | some err =>
    { exit := .code 3
      proc := (p.call .txCommit false).print
        ("ruh-oh, couldn't commit transaction to insert new bucket " ++ err)
      db := db }
  | none =>
    { exit := .returned, proc := (p.call .txCommit true).print "   done!", db := tx }

/-- The process state `main` starts in. -/
def Proc.init : Proc :=
  { out := [], log := [], suffixes := [], emitted := [], nmatches := 0, matchables := 0 }

/-- The program.  `db` is the committed store when the process starts; a
process that ends before `tx.Commit()` succeeded leaves it as it was, its
open transaction being dropped with the connection. -/
def main (env : Env) (db : Store) : Result :=
  match loadConfig env Proc.init with
  | .stop e p => { exit := e, proc := p, db := db }
  | .next _ p =>
  match readFilter env p with
  | .stop e p => { exit := e, proc := p, db := db }
  | .next (bucketFilter, scanner) p =>
  match validate env bucketFilter scanner p with
  | .stop e p => { exit := e, proc := p, db := db }
  | .next re p =>
  match beginTx env db p with
  | .stop e p => { exit := e, proc := p, db := db }
  | .next tx p =>
  match resolveBucket env bucketFilter tx p with
  | .stop e p => { exit := e, proc := p, db := db }
  | .next (id, tx) p =>
  match registerFilter env bucketFilter id tx p with
  | .stop e p => { exit := e, proc := p, db := db }
  | .next tx p =>
  match backfill env re id db tx p with
  | .stop e p => { exit := e, proc := p, db := db }
  | .next tx p => commitTx env db tx p


/-! ## Predicates on runs -/

/-- A failure exit: `os.Exit` with a non-zero code, or a panic. -/
def Exit.isFailure : Exit → Bool
  | .code n => n != 0
  | .panic _ => true
  | .returned => false

/-- No commit was attempted so far. -/
def NoCommit (p : Proc) : Prop :=
  ∀ x ∈ p.log, x.1 ≠ Op.txCommit

/-- Every database step so far succeeded and no commit was attempted. -/
def Clean (p : Proc) : Prop :=
  ∀ x ∈ p.log, x.2 = true ∧ x.1 ≠ Op.txCommit

/-- What every block inside the transaction keeps: going on, all database
steps so far succeeded; ending the process, it ended with `os.Exit(3)` and no
commit was attempted. -/
def Step.Safe {α : Type} : Step α → Prop
  | .next _ p => Clean p
  | .stop e p => e = Exit.code 3 ∧ NoCommit p

/-- The number a list of decimal digit characters stands for. -/
def digitsValue (cs : List Char) : Nat :=
  cs.foldl (fun a c => 10 * a + (c.toNat - 48)) 0


/-! ## Concrete runs -/

/-- Whether `pattern` occurs in the text as a run of consecutive characters. -/
def occursIn (pattern : List Char) : List Char → Bool
  | [] => pattern.isEmpty
  | c :: cs => pattern.isPrefixOf (c :: cs) || occursIn pattern cs

/-- Method `MatchString` of a regular expression that has no metacharacter:
the pattern occurs in the text. -/
def literalMatch (pattern : String) : Regexp :=
  fun s => occursIn pattern.data s.data

/-- A stand-in for `regexp.Compile` on the patterns used below: `[` is
rejected, a pattern without metacharacters compiles to `literalMatch`. -/
def compileLiteral (pattern : String) : Except String Regexp :=
  if pattern = "[" then .error "error parsing regexp: missing closing ]"
  else .ok (literalMatch pattern)

/-- A run `-config import.json -bucketName errors -bucketFilter ERROR` with one
test line on standard input, every other flag at its default, and no step
failing. -/
def scenarioEnv : Env where
  nargs := 7
  configFileFlag := "import.json"
  bucketName := "errors"
  bucketFilter := "ERROR"
  testIt := true
  eatIt := true
  reportIt := true
  updateCounts := true
  apply := true
  onlyOn := []
  openErr := none
  configuration := some { DBConn := ["dbname=events"] }
  sqlOpenErr := none
  stdin := ["ERROR: test line"]
  stdinErr := none
  stdinCut := false
  compile := compileLiteral
  beginErr := none
  lookupErr := none
  bucketInsertErr := none
  newId := 1
  filterInsertErr := none
  hostInsertErr := fun _ => none
  queryErr := none
  order := fun rows => rows
  scanErr := fun _ => none
  updateErr := fun _ => none
  rowsErr := none
  commitErr := none

/-- A store with no bucket and three unclassified events. -/
def scenarioDb : Store where
  buckets := []
  filters := []
  onlyon := []
  events := [{ event := "ERROR: disk full", bucket_id := none },
    { event := "INFO: ok", bucket_id := none },
    { event := "ERROR: oom", bucket_id := none }]

/-- The same run with a configuration file that holds `{}`: it decodes to a
configuration whose `DBConn` is empty. -/
def emptyConfigEnv : Env :=
  { scenarioEnv with configuration := some { DBConn := [] } }

/-- The same run with the filter `[`, which is no regular expression. -/
def badFilterEnv : Env :=
  { scenarioEnv with bucketFilter := "[" }

/-- The same run with `-onlyOn web1,web2`. -/
def hostsEnv : Env :=
  { scenarioEnv with onlyOn := ["web1,web2"] }

/-- A store that already holds a bucket named "errors", with both flags off. -/
def existingDb : Store :=
  { scenarioDb with
    buckets := [{ id := 7, name := "errors", eat_it := false, report_it := false }] }

/-- The store the scenario run leaves behind. -/
def scenarioDone : Store where
  buckets := [{ id := 1, name := "errors", eat_it := true, report_it := true }]
  filters := [{ bucket_id := 1, filter := "ERROR", report := true }]
  onlyon := []
  events := [{ event := "ERROR: disk full", bucket_id := some 1 },
    { event := "INFO: ok", bucket_id := none },
    { event := "ERROR: oom", bucket_id := some 1 }]

/-- The scenario run in which the update for the third row fails. -/
def updateFailEnv : Env :=
  { scenarioEnv with updateErr := fun i => if i = 2 then some "connection reset" else none }

/-- The scenario run with a test line that does not match, standard input
ending in a read error after that complete line. -/
def readErrorEnv : Env :=
  { scenarioEnv with stdin := ["INFO: ok"], stdinErr := some "read error" }

/-- The same, the read error striking inside the test line. -/
def cutLineEnv : Env :=
  { readErrorEnv with stdinCut := true }

/-- A run without `-bucketFilter` whose standard input gives no line and ends
in a read error. -/
def noFilterEnv : Env :=
  { scenarioEnv with bucketFilter := "", stdin := [], stdinErr := some "read error" }

/-! ## Facts about the SQL statements -/

theorem selectBucketId_append_of_none (pre post : List Bucket) (name : String)
    (h : ∀ b ∈ pre, b.name ≠ name) :
    selectBucketId (pre ++ post) name = selectBucketId post name := by
  have hpre : pre.find? (fun b => decide (b.name = name)) = none := by
    simpa [List.find?_eq_none] using h
  simp [selectBucketId, List.find?_append, hpre]

theorem selectBucketId_cons_self (b : Bucket) (post : List Bucket) :
    selectBucketId (b :: post) b.name = some b.id := by
  simp [selectBucketId, List.find?]

theorem selectBucketId_none_iff (buckets : List Bucket) (name : String) :
    selectBucketId buckets name = none ↔ ∀ b ∈ buckets, b.name ≠ name := by
  simp [selectBucketId, List.find?_eq_none]

theorem selectBucketId_insertBucket (buckets : List Bucket) (id : Int) (name : String)
    (eat_it report_it : Bool) (h : selectBucketId buckets name = none) :
    selectBucketId (insertBucket buckets id name eat_it report_it) name = some id := by
  rw [selectBucketId_none_iff] at h
  unfold insertBucket
  rw [selectBucketId_append_of_none _ _ _ h]
  exact selectBucketId_cons_self
    { id := id, name := name, eat_it := eat_it, report_it := report_it } []

/-! ## Bucket resolver and filter registrar -/

theorem insertHosts_next (env : Env) (id : Int) (hosts : List String) :
    ∀ (h : Nat) (tx : Store) (p : Proc) (tx' : Store) (p' : Proc),
      insertHosts env id h hosts tx p = .next tx' p' →
      tx' = { tx with
        onlyon := tx.onlyon ++ hosts.map (fun host => { bucket_id := id, host := host }) } := by
  induction hosts with
  | nil =>
    intro h tx p tx' p' hrun
    simp only [insertHosts, Step.next.injEq] at hrun
    simp [← hrun.1]
  | cons host hosts ih =>
    intro h tx p tx' p' hrun
    unfold insertHosts at hrun
    split at hrun
    · exact absurd hrun (by simp)
    · have := ih _ _ _ _ _ hrun
      simp [this, insertOnlyOn]

theorem insertHosts_total (env : Env) (id : Int) (hosts : List String) :
    ∀ (h : Nat) (tx : Store) (p : Proc),
      (∀ j, j < hosts.length → env.hostInsertErr (h + j) = none) →
      ∃ tx' p', insertHosts env id h hosts tx p = .next tx' p' := by
  induction hosts with
  | nil =>
    intro h tx p _
    exact ⟨tx, p, rfl⟩
  | cons host hosts ih =>
    intro h tx p hok
    have h0 : env.hostInsertErr h = none := by simpa using hok 0 (by simp)
    unfold insertHosts
    simp only [h0]
    apply ih
    intro j hj
    have := hok (j + 1) (by simpa using hj)
    rwa [show h + 1 + j = h + (j + 1) by omega]

/-- C6. When the buckets table already holds a row named like the requested
bucket (`row` being the first such row), the find-or-create step returns that
row's id and hands back the store it was given, whatever `eatIt` and
`reportIt` the caller supplied: no row of `buckets` is changed, and the only
statement issued is the lookup. -/
theorem resolveBucket_existing_unchanged (env : Env) (bucketFilter : String) (tx : Store)
    (p : Proc) (pre post : List Bucket) (row : Bucket)
    (htable : tx.buckets = pre ++ row :: post)
    (hfirst : ∀ b ∈ pre, b.name ≠ env.bucketName)
    (hname : row.name = env.bucketName)
    (hlookup : env.lookupErr = none) :
    ∃ p', resolveBucket env bucketFilter tx p = .next (row.id, tx) p' ∧
      p'.log = p.log ++ [(Op.selectBucket env.bucketName, true)] := by
  have hsel : selectBucketId tx.buckets env.bucketName = some row.id := by
    rw [htable, selectBucketId_append_of_none _ _ _ hfirst, ← hname]
    exact selectBucketId_cons_self row post
  unfold resolveBucket
  simp only [hlookup, hsel]
  exact ⟨_, rfl, rfl⟩

/-- C3. Resolving the same bucket name twice in a row: whenever the first
find-or-create step returns an id and a store, a second step on that store
(its lookup not failing; any flags, any filter) returns the same id and the
same store, and issues the lookup only, so it inserts no bucket row.  The
first step does return whenever its lookup and insert do not fail. -/
theorem resolveBucket_idempotent (env1 env2 : Env) (f1 f2 : String) (tx : Store)
    (p1 p2 : Proc)
    (hname : env2.bucketName = env1.bucketName)
    (hlookup : env2.lookupErr = none) :
    (env1.lookupErr = none → env1.bucketInsertErr = none →
      ∃ id1 tx1 p1', resolveBucket env1 f1 tx p1 = .next (id1, tx1) p1') ∧
    ∀ id1 tx1 p1', resolveBucket env1 f1 tx p1 = .next (id1, tx1) p1' →
      ∃ p2', resolveBucket env2 f2 tx1 p2 = .next (id1, tx1) p2' ∧
        p2'.log = p2.log ++ [(Op.selectBucket env2.bucketName, true)] := by
  constructor
  · intro h1 h2
    unfold resolveBucket
    simp only [h1, h2]
    split
    · exact ⟨_, _, _, rfl⟩
    · exact ⟨_, _, _, rfl⟩
  · intro id1 tx1 p1' hrun
    have hsel : selectBucketId tx1.buckets env2.bucketName = some id1 := by
      unfold resolveBucket at hrun
      split at hrun
      · exact absurd hrun (by simp)
      · split at hrun
        · next id hfound =>
          simp only [Step.next.injEq, Prod.mk.injEq] at hrun
          rw [hname, ← hrun.1.1, ← hrun.1.2]
          exact hfound
        · next hnone =>
          split at hrun
          · exact absurd hrun (by simp)
          · simp only [Step.next.injEq, Prod.mk.injEq] at hrun
            rw [hname, ← hrun.1.1, ← hrun.1.2]
            exact selectBucketId_insertBucket _ _ _ _ _ hnone
    unfold resolveBucket
    simp only [hlookup, hsel]
    exact ⟨_, rfl, rfl⟩

theorem registerFilter_next (env : Env) (bucketFilter : String) (id : Int) (tx : Store)
    (p : Proc) (tx' : Store) (p' : Proc)
    (hrun : registerFilter env bucketFilter id tx p = .next tx' p') :
    tx' = { buckets := tx.buckets
            filters := tx.filters ++
              [{ bucket_id := id, filter := bucketFilter, report := env.updateCounts }]
            onlyon := tx.onlyon ++
              env.hostListFlag.map (fun h => { bucket_id := id, host := h })
            events := tx.events } := by
  cases hf : env.filterInsertErr with
  | some err => simp [registerFilter, hf] at hrun
  | none =>
    simp only [registerFilter, hf] at hrun
    have h := insertHosts_next _ _ _ _ _ _ _ _ hrun
    subst h
    simp [insertFilter]

theorem registerFilter_total (env : Env) (bucketFilter : String) (id : Int) (tx : Store)
    (p : Proc) (hf : env.filterInsertErr = none)
    (hh : ∀ h, h < env.hostListFlag.length → env.hostInsertErr h = none) :
    ∃ tx' p', registerFilter env bucketFilter id tx p = .next tx' p' := by
  unfold registerFilter
  simp only [hf]
  apply insertHosts_total
  intro j hj
  simpa using hh j hj

/-- C7. The filter registrar, for a bucket id, a pattern source, the
`updateCounts` flag and the host list: whenever it returns, the store it
returns is the one it was given with exactly one row `(id, pattern,
updateCounts)` appended to `filters` and one row `(id, h)` appended to `onlyon`
for each host `h`, in list order (so as many rows as hosts), everything else
unchanged; the number of copies of that filter row grows by one, also when
the row was there already.  It does return when no insert fails. -/
theorem registerFilter_rows (env : Env) (bucketFilter : String) (id : Int) (tx : Store)
    (p : Proc) :
    (∀ tx' p', registerFilter env bucketFilter id tx p = .next tx' p' →
      tx' = { buckets := tx.buckets
              filters := tx.filters ++
                [{ bucket_id := id, filter := bucketFilter, report := env.updateCounts }]
              onlyon := tx.onlyon ++
                env.hostListFlag.map (fun h => { bucket_id := id, host := h })
              events := tx.events } ∧
      (tx'.onlyon.length = tx.onlyon.length + env.hostListFlag.length) ∧
      tx'.filters.count { bucket_id := id, filter := bucketFilter, report := env.updateCounts } =
        tx.filters.count { bucket_id := id, filter := bucketFilter, report := env.updateCounts }
          + 1) ∧
    (env.filterInsertErr = none →
      (∀ h, h < env.hostListFlag.length → env.hostInsertErr h = none) →
      ∃ tx' p', registerFilter env bucketFilter id tx p = .next tx' p') := by
  refine ⟨?_, registerFilter_total env bucketFilter id tx p⟩
  intro tx' p' hrun
  have h := registerFilter_next env bucketFilter id tx p tx' p' hrun
  subst h
  simp
/-! ## Backfill scanner -/

/-- What the updates of a whole pass do to one event row: a row that is
unclassified, whose payload is among `rows` and matches, gets the bucket id. -/
theorem updateEvents_map (re : Regexp) (id : Int) (event : String) (rows : List String)
    (events : List Event) (hre : re event = true) :
    (updateEvents events id event).map (fun e =>
        if e.bucket_id = none ∧ e.event ∈ rows ∧ re e.event = true
        then { e with bucket_id := some id } else e) =
      events.map (fun e =>
        if e.bucket_id = none ∧ e.event ∈ event :: rows ∧ re e.event = true
        then { e with bucket_id := some id } else e) := by
  unfold updateEvents
  rw [List.map_map]
  apply List.map_congr_left
  intro e _
  by_cases h1 : e.bucket_id = none <;> by_cases h2 : e.event = event <;>
    simp [h1, h2, hre]

theorem matchLoop_next (env : Env) (re : Regexp) (id : Int) (rows : List String) :
    ∀ (i : Nat) (tx : Store) (p : Proc) (tx' : Store) (p' : Proc),
      matchLoop env re id i rows tx p = .next tx' p' →
      tx' = { tx with events := tx.events.map (fun e =>
        if e.bucket_id = none ∧ e.event ∈ rows ∧ re e.event = true
        then { e with bucket_id := some id } else e) } := by
  induction rows with
  | nil =>
    intro i tx p tx' p' hrun
    simp only [matchLoop, Step.next.injEq] at hrun
    simp [← hrun.1]
  | cons event rows ih =>
    intro i tx p tx' p' hrun
    unfold matchLoop at hrun
    split at hrun
    · exact absurd hrun (by simp)
    · by_cases hre : re event = true
      · simp only [hre, if_true] at hrun
        split at hrun
        · exact absurd hrun (by simp)
        · have h := ih _ _ _ _ _ hrun
          rw [h]
          simp only [updateEvents_map re id event rows tx.events hre]
      · simp only [hre] at hrun
        have h := ih _ _ _ _ _ hrun
        rw [h]
        congr 1
        apply List.map_congr_left
        intro e _
        by_cases h2 : e.event = event
        · have : ¬ re e.event = true := by rw [h2]; exact hre
          simp [this]
        · simp [h2]

theorem matchLoop_total (env : Env) (re : Regexp) (id : Int) (rows : List String)
    (hscan : ∀ i, env.scanErr i = none) (hupdate : ∀ i, env.updateErr i = none) :
    ∀ (i : Nat) (tx : Store) (p : Proc),
      ∃ tx' p', matchLoop env re id i rows tx p = .next tx' p' := by
  induction rows with
  | nil =>
    intro i tx p
    exact ⟨tx, p, rfl⟩
  | cons event rows ih =>
    intro i tx p
    unfold matchLoop
    simp only [hscan, hupdate]
    split
    · exact ih _ _ _
    · exact ih _ _ _

theorem mem_selectDistinctUnclassified (events : List Event) (x : String) :
    x ∈ selectDistinctUnclassified events ↔ ∃ e ∈ events, e.bucket_id = none ∧ e.event = x := by
  simp [selectDistinctUnclassified, List.mem_dedup, and_assoc]

theorem nodup_selectDistinctUnclassified (events : List Event) :
    (selectDistinctUnclassified events).Nodup :=
  List.nodup_dedup _
theorem backfill_next (env : Env) (re : Regexp) (id : Int) (db tx : Store) (p : Proc)
    (happly : env.apply = true)
    (htx : tx.events = db.events)
    (horder : (env.order (selectDistinctUnclassified db.events)).Perm
      (selectDistinctUnclassified db.events))
    (tx' : Store) (p' : Proc) (hrun : backfill env re id db tx p = .next tx' p') :
    tx' = { tx with events := db.events.map (fun e =>
      if e.bucket_id = none ∧ re e.event = true
      then { e with bucket_id := some id } else e) } := by
  unfold backfill at hrun
  simp only [happly, if_true] at hrun
  cases hq : env.queryErr with
  | some err => simp [hq] at hrun
  | none =>
    simp only [hq] at hrun
    split at hrun
    · exact absurd hrun (by simp)
    · next tx1 p1 hloop =>
      cases hr : env.rowsErr with
      | some ke => simp [hr] at hrun
      | none =>
        simp only [hr, Step.next.injEq] at hrun
        have h := matchLoop_next _ _ _ _ _ _ _ _ _ hloop
        rw [← hrun.1, h, htx]
        congr 1
        apply List.map_congr_left
        intro e he
        by_cases h1 : e.bucket_id = none
        · have hmem : e.event ∈ cursorRows env db := by
            simp only [cursorRows, hr]
            rw [horder.mem_iff, mem_selectDistinctUnclassified]
            exact ⟨e, he, h1, rfl⟩
          simp [h1, hmem]
        · simp [h1]

theorem backfill_total (env : Env) (re : Regexp) (id : Int) (db tx : Store) (p : Proc)
    (happly : env.apply = true) (hq : env.queryErr = none) (hr : env.rowsErr = none)
    (hs : ∀ i, env.scanErr i = none) (hu : ∀ i, env.updateErr i = none) :
    ∃ tx' p', backfill env re id db tx p = .next tx' p' := by
  unfold backfill
  simp only [happly, if_true, hq, hr]
  obtain ⟨tx', p', h⟩ := matchLoop_total env re id (cursorRows env db) hs hu 0 tx
    ((p.call .selectEvents true).print "").resetCounters
  rw [h]
  exact ⟨_, _, rfl⟩

/-- C1. Backfill correctness.  With `-apply`, the transaction not having
touched `events` before the query, and the cursor handing out the distinct
unclassified payloads in any order: whenever the backfill runs to its end
without error, the store it returns is the one it was given with `bucket_id`
set to `id` on exactly the events that were unclassified and whose payload
the filter matches (every row of a repeated payload included); a row that was
unclassified and does not match is still unclassified, a row that was
classified keeps its bucket id, and the other tables are as they were.  The
backfill does run to its end when no query, cursor or update step fails. -/
theorem backfill_correct (env : Env) (re : Regexp) (id : Int) (db tx : Store) (p : Proc)
    (happly : env.apply = true)
    (htx : tx.events = db.events)
    (horder : (env.order (selectDistinctUnclassified db.events)).Perm
      (selectDistinctUnclassified db.events)) :
    (∀ tx' p', backfill env re id db tx p = .next tx' p' →
      tx' = { tx with events := db.events.map (fun e =>
        if e.bucket_id = none ∧ re e.event = true
        then { e with bucket_id := some id } else e) }) ∧
    (env.queryErr = none → env.rowsErr = none → (∀ i, env.scanErr i = none) →
      (∀ i, env.updateErr i = none) →
      ∃ tx' p', backfill env re id db tx p = .next tx' p') :=
  ⟨backfill_next env re id db tx p happly htx horder,
    backfill_total env re id db tx p happly⟩
/-! ## Counters and progress texts of the matching loop -/

@[simp]
theorem Proc.call_suffixes (p : Proc) (op : Op) (ok : Bool) :
    (p.call op ok).suffixes = p.suffixes := rfl

@[simp]
theorem Proc.print_suffixes (p : Proc) (s : String) :
    (p.print s).suffixes = p.suffixes := rfl

@[simp]
theorem Proc.call_nmatches (p : Proc) (op : Op) (ok : Bool) :
    (p.call op ok).nmatches = p.nmatches := rfl

@[simp]
theorem Proc.call_matchables (p : Proc) (op : Op) (ok : Bool) :
    (p.call op ok).matchables = p.matchables := rfl

@[simp]
theorem Proc.setSuffix_nmatches (p : Proc) : p.setSuffix.nmatches = p.nmatches := rfl

@[simp]
theorem Proc.setSuffix_matchables (p : Proc) :
    p.setSuffix.matchables = p.matchables := rfl

@[simp]
theorem Proc.setSuffix_suffixes (p : Proc) :
    p.setSuffix.suffixes = p.suffixes ++ [suffixText p.nmatches p.matchables] := rfl

@[simp]
theorem Proc.print_nmatches (p : Proc) (s : String) :
    (p.print s).nmatches = p.nmatches := rfl

@[simp]
theorem Proc.print_matchables (p : Proc) (s : String) :
    (p.print s).matchables = p.matchables := rfl

@[simp]
theorem Proc.incMatchables_suffixes (p : Proc) :
    p.incMatchables.suffixes = p.suffixes := rfl

@[simp]
theorem Proc.incMatchables_nmatches (p : Proc) :
    p.incMatchables.nmatches = p.nmatches := rfl

@[simp]
theorem Proc.incMatchables_matchables (p : Proc) :
    p.incMatchables.matchables = p.matchables + 1 := rfl

@[simp]
theorem Proc.incMatches_suffixes (p : Proc) : p.incMatches.suffixes = p.suffixes := rfl

@[simp]
theorem Proc.incMatches_nmatches (p : Proc) :
    p.incMatches.nmatches = p.nmatches + 1 := rfl

@[simp]
theorem Proc.incMatches_matchables (p : Proc) :
    p.incMatches.matchables = p.matchables := rfl

@[simp]
theorem Proc.resetCounters_suffixes (p : Proc) :
    p.resetCounters.suffixes = p.suffixes := rfl

@[simp]
theorem Proc.resetCounters_nmatches (p : Proc) : p.resetCounters.nmatches = 0 := rfl

@[simp]
theorem Proc.resetCounters_matchables (p : Proc) : p.resetCounters.matchables = 0 := rfl

@[simp]
theorem Proc.call_emitted (p : Proc) (op : Op) (ok : Bool) :
    (p.call op ok).emitted = p.emitted := rfl

@[simp]
theorem Proc.print_emitted (p : Proc) (s : String) : (p.print s).emitted = p.emitted := rfl

@[simp]
theorem Proc.incMatchables_emitted (p : Proc) : p.incMatchables.emitted = p.emitted := rfl

@[simp]
theorem Proc.incMatches_emitted (p : Proc) : p.incMatches.emitted = p.emitted := rfl

@[simp]
theorem Proc.resetCounters_emitted (p : Proc) : p.resetCounters.emitted = p.emitted := rfl

@[simp]
theorem Proc.setSuffix_emitted (p : Proc) :
    p.setSuffix.emitted = p.emitted ++ [(p.nmatches, p.matchables)] := rfl

theorem range_succ_map_shift {β : Type} (f : Nat → β) (k : Nat) :
    (List.range (k + 1)).map f = f 0 :: (List.range k).map (fun j => f (j + 1)) := by
  rw [List.range_succ_eq_map, List.map_cons, List.map_map]
  rfl

theorem matchLoop_suffixes (env : Env) (re : Regexp) (id : Int) (rows : List String) :
    ∀ (i : Nat) (tx : Store) (p : Proc),
      ∃ k, k ≤ rows.length ∧
        (matchLoop env re id i rows tx p).proc.suffixes = p.suffixes ++
          (List.range k).map (fun j =>
            suffixText (p.nmatches + (rows.take (j + 1)).countP re) (p.matchables + (j + 1))) ∧
        (matchLoop env re id i rows tx p).proc.emitted = p.emitted ++
          (List.range k).map (fun j =>
            (p.nmatches + (rows.take (j + 1)).countP re, p.matchables + (j + 1))) ∧
        ∀ tx' p', matchLoop env re id i rows tx p = .next tx' p' →
          k = rows.length ∧ p'.nmatches = p.nmatches + rows.countP re ∧
            p'.matchables = p.matchables + rows.length := by
  induction rows with
  | nil =>
    intro i tx p
    refine ⟨0, le_refl _, by simp [matchLoop, Step.proc], by simp [matchLoop, Step.proc], ?_⟩
    intro tx' p' h
    simp only [matchLoop, Step.next.injEq] at h
    simp [← h.2]
  | cons event rows ih =>
    intro i tx p
    unfold matchLoop
    cases hs : env.scanErr i with
    | some err =>
      exact ⟨0, Nat.zero_le _, by simp [Step.proc], by simp [Step.proc],
        by intro tx' p' h; simp at h⟩
    | none =>
      by_cases hre : re event = true
      · cases hu : env.updateErr i with
        | some err =>
          refine ⟨0, Nat.zero_le _, by simp [hre, Step.proc], by simp [hre, Step.proc], ?_⟩
          intro tx' p' h
          simp [hre] at h
        | none =>
          simp only [hre, if_true]
          obtain ⟨k, hk, hsuf, hem, hnext⟩ := ih (i + 1)
            { tx with events := updateEvents tx.events id event }
            (((p.call (.rowsScan i) true).incMatchables.incMatches.call
              (.updateEvents id event) true).setSuffix)
          refine ⟨k + 1, by simpa using hk, ?_, ?_, ?_⟩
          · rw [hsuf, range_succ_map_shift]
            simp [hre, List.countP_cons, Nat.add_assoc, Nat.add_comm 1]
          · rw [hem, range_succ_map_shift]
            simp [hre, List.countP_cons, Nat.add_assoc, Nat.add_comm 1]
          · intro tx' p' h
            obtain ⟨h1, h2, h3⟩ := hnext tx' p' h
            refine ⟨by simp [h1], ?_, ?_⟩
            · rw [h2]; simp [hre, List.countP_cons]; omega
            · rw [h3]; simp; omega
      · simp only [hre]
        obtain ⟨k, hk, hsuf, hem, hnext⟩ := ih (i + 1) tx
          (p.call (.rowsScan i) true).incMatchables.setSuffix
        refine ⟨k + 1, by simpa using hk, ?_, ?_, ?_⟩
        · simp only [Bool.false_eq_true, if_false]
          rw [hsuf, range_succ_map_shift]
          simp [hre, List.countP_cons, Nat.add_assoc, Nat.add_comm 1]
        · simp only [Bool.false_eq_true, if_false]
          rw [hem, range_succ_map_shift]
          simp [hre, List.countP_cons, Nat.add_assoc, Nat.add_comm 1]
        · intro tx' p' h
          simp only [Bool.false_eq_true, if_false] at h
          obtain ⟨h1, h2, h3⟩ := hnext tx' p' h
          refine ⟨by simp [h1], ?_, ?_⟩
          · rw [h2]; simp [hre, List.countP_cons]
          · rw [h3]; simp; omega
/-! ## The progress text determines the counters -/

theorem digitChar_value (k : Nat) (hk : k < 10) : (Nat.digitChar k).toNat - 48 = k := by
  interval_cases k <;> rfl

theorem digitChar_isDigit (k : Nat) (hk : k < 10) : (Nat.digitChar k).isDigit = true := by
  interval_cases k <;> rfl

theorem digitsFold_eq (cs : List Char) :
    ∀ a : Nat, cs.foldl (fun a c => 10 * a + (c.toNat - 48)) a =
      a * 10 ^ cs.length + digitsValue cs := by
  induction cs with
  | nil => intro a; simp [digitsValue]
  | cons c cs ih =>
    intro a
    simp only [digitsValue, List.foldl_cons, List.length_cons]
    rw [ih (10 * a + (c.toNat - 48)), ih (10 * 0 + (c.toNat - 48))]
    ring

theorem digitsValue_cons (c : Char) (cs : List Char) :
    digitsValue (c :: cs) = (c.toNat - 48) * 10 ^ cs.length + digitsValue cs := by
  simp only [digitsValue, List.foldl_cons]
  rw [digitsFold_eq cs (10 * 0 + (c.toNat - 48))]
  simp [digitsValue]

theorem toDigitsCore_value (fuel : Nat) :
    ∀ (n : Nat) (ds : List Char), n < fuel →
      digitsValue (Nat.toDigitsCore 10 fuel n ds) = n * 10 ^ ds.length + digitsValue ds := by
  induction fuel with
  | zero => intro n ds h; exact absurd h (Nat.not_lt_zero _)
  | succ fuel ih =>
    intro n ds h
    unfold Nat.toDigitsCore
    simp only
    have hmod : n % 10 < 10 := Nat.mod_lt _ (by decide)
    split
    · next h0 =>
      have hn : n = n % 10 := by omega
      rw [digitsValue_cons, digitChar_value _ hmod, ← hn]
    · next h0 =>
      have hlt : n / 10 < fuel := by omega
      rw [ih _ _ hlt, digitsValue_cons, digitChar_value _ hmod, List.length_cons, pow_succ]
      have hn : n = 10 * (n / 10) + n % 10 := (Nat.div_add_mod n 10).symm
      calc n / 10 * (10 ^ ds.length * 10) + (n % 10 * 10 ^ ds.length + digitsValue ds)
          = (10 * (n / 10) + n % 10) * 10 ^ ds.length + digitsValue ds := by ring
        _ = n * 10 ^ ds.length + digitsValue ds := by rw [← hn]

theorem toDigitsCore_isDigit (fuel : Nat) :
    ∀ (n : Nat) (ds : List Char), (∀ c ∈ ds, c.isDigit = true) →
      ∀ c ∈ Nat.toDigitsCore 10 fuel n ds, c.isDigit = true := by
  induction fuel with
  | zero => intro n ds h c hc; exact h c hc
  | succ fuel ih =>
    intro n ds h
    unfold Nat.toDigitsCore
    simp only
    have hmod : n % 10 < 10 := Nat.mod_lt _ (by decide)
    have hds : ∀ c ∈ Nat.digitChar (n % 10) :: ds, c.isDigit = true := by
      intro c hc
      rcases List.mem_cons.mp hc with hc | hc
      · rw [hc]; exact digitChar_isDigit _ hmod
      · exact h c hc
    split
    · exact hds
    · exact ih _ _ hds

theorem Itoa_data (n : Nat) : (Itoa n).data = Nat.toDigits 10 n := rfl

theorem Itoa_value (n : Nat) : digitsValue (Itoa n).data = n := by
  rw [Itoa_data]
  unfold Nat.toDigits
  rw [toDigitsCore_value (n + 1) n [] (Nat.lt_succ_self n)]
  simp [digitsValue]

theorem Itoa_isDigit (n : Nat) : ∀ c ∈ (Itoa n).data, c.isDigit = true := by
  rw [Itoa_data]
  exact toDigitsCore_isDigit _ _ _ (fun c hc => absurd hc (List.not_mem_nil _))

/-- Two texts that start with digits and go on with a character that is no
digit agree on the digits and on the rest. -/
theorem digits_prefix_unique (a : List Char) :
    ∀ (b r s : List Char) (x y : Char),
      (∀ c ∈ a, c.isDigit = true) → (∀ c ∈ b, c.isDigit = true) →
      x.isDigit = false → y.isDigit = false →
      a ++ x :: r = b ++ y :: s → a = b ∧ r = s := by
  induction a with
  | nil =>
    intro b r s x y _ hb hx _ h
    cases b with
    | nil =>
      simp only [List.nil_append, List.cons.injEq] at h
      exact ⟨rfl, h.2⟩
    | cons d b =>
      simp only [List.nil_append, List.cons_append, List.cons.injEq] at h
      have := hb d (List.mem_cons_self _ _)
      rw [← h.1, hx] at this
      exact absurd this (by simp)
  | cons d a ih =>
    intro b r s x y ha hb hx hy h
    cases b with
    | nil =>
      simp only [List.nil_append, List.cons_append, List.cons.injEq] at h
      have := ha d (List.mem_cons_self _ _)
      rw [h.1, hy] at this
      exact absurd this (by simp)
    | cons e b =>
      simp only [List.cons_append, List.cons.injEq] at h
      obtain ⟨h1, h2⟩ := ih b r s x y (fun c hc => ha c (List.mem_cons_of_mem _ hc))
        (fun c hc => hb c (List.mem_cons_of_mem _ hc)) hx hy h.2
      exact ⟨by rw [h.1, h1], h2⟩

/-- The progress text determines both counters. -/
theorem suffixText_inj (m n m' n' : Nat) (h : suffixText m n = suffixText m' n') :
    m = m' ∧ n = n' := by
  have hd := congrArg String.data h
  simp only [suffixText, String.data_append, List.append_assoc] at hd
  have hd := List.append_cancel_left hd
  simp only [List.cons_append, List.nil_append] at hd
  obtain ⟨hm, hrest⟩ := digits_prefix_unique _ _ _ _ _ _ (Itoa_isDigit m) (Itoa_isDigit m')
    (by decide) (by decide) hd
  simp only [List.cons.injEq, true_and] at hrest
  obtain ⟨hn, _⟩ := digits_prefix_unique _ _ _ _ _ _ (Itoa_isDigit n) (Itoa_isDigit n')
    (by decide) (by decide) hrest
  constructor
  · have := congrArg digitsValue hm
    rwa [Itoa_value, Itoa_value] at this
  · have := congrArg digitsValue hn
    rwa [Itoa_value, Itoa_value] at this
/-- C5. Counter consistency of the matching loop, for any rows the cursor
hands out and any filter.  The loop, started as the source starts it (both
counters zero), gets through some number `k` of the rows (all of them when it
ends without error) and assigns the spinner suffix exactly `k` times.  At
assignment number `j` (from zero) the variable `matches` holds the number of
matching payloads among the first `j + 1` rows and `matchables` holds `j + 1`,
the number of rows examined so far; at every assignment `matches` is at most
`matchables`; the text assigned is the one built from these two values, and
that text determines both values.  When the loop ends, `matchables` is the
number of rows and `matches` the number of matching rows. -/
theorem matchLoop_counter_consistency (env : Env) (re : Regexp) (id : Int)
    (rows : List String) (tx : Store) (p : Proc) :
    ∃ k, k ≤ rows.length ∧
      (matchLoop env re id 0 rows tx p.resetCounters).proc.emitted = p.emitted ++
        (List.range k).map (fun j => ((rows.take (j + 1)).countP re, j + 1)) ∧
      (matchLoop env re id 0 rows tx p.resetCounters).proc.suffixes = p.suffixes ++
        (List.range k).map (fun j => suffixText ((rows.take (j + 1)).countP re) (j + 1)) ∧
      (∀ x ∈ (matchLoop env re id 0 rows tx p.resetCounters).proc.emitted,
        x ∈ p.emitted ∨ x.1 ≤ x.2) ∧
      (∀ j, (rows.take (j + 1)).countP re ≤ j + 1) ∧
      (∀ m n m' n', suffixText m n = suffixText m' n' → m = m' ∧ n = n') ∧
      ∀ tx' p', matchLoop env re id 0 rows tx p.resetCounters = .next tx' p' →
        k = rows.length ∧ p'.nmatches = rows.countP re ∧ p'.matchables = rows.length ∧
          p'.nmatches ≤ p'.matchables := by
  obtain ⟨k, hk, hsuf, hem, hnext⟩ := matchLoop_suffixes env re id rows 0 tx p.resetCounters
  have hle : ∀ j, (rows.take (j + 1)).countP re ≤ j + 1 := by
    intro j
    calc (rows.take (j + 1)).countP re ≤ (rows.take (j + 1)).length := List.countP_le_length _
      _ ≤ j + 1 := List.length_take_le _ _
  have hem2 : (matchLoop env re id 0 rows tx p.resetCounters).proc.emitted = p.emitted ++
      (List.range k).map (fun j => ((rows.take (j + 1)).countP re, j + 1)) := by
    simpa using hem
  refine ⟨k, hk, hem2, ?_, ?_, hle, suffixText_inj, ?_⟩
  · simpa using hsuf
  · intro x hx
    rw [hem2, List.mem_append] at hx
    rcases hx with hx | hx
    · exact Or.inl hx
    · right
      rw [List.mem_map] at hx
      obtain ⟨j, _, hj⟩ := hx
      rw [← hj]
      exact hle j
  · intro tx' p' h
    obtain ⟨h1, h2, h3⟩ := hnext tx' p' h
    simp only [Proc.resetCounters_nmatches, Proc.resetCounters_matchables, Nat.zero_add] at h2 h3
    exact ⟨h1, h2, h3, by rw [h2, h3]; exact List.countP_le_length _⟩

/-! ## Re-running the backfill -/

@[simp]
theorem Proc.call_log (p : Proc) (op : Op) (ok : Bool) :
    (p.call op ok).log = p.log ++ [(op, ok)] := rfl

@[simp]
theorem Proc.print_log (p : Proc) (s : String) : (p.print s).log = p.log := rfl

@[simp]
theorem Proc.setSuffix_log (p : Proc) : p.setSuffix.log = p.log := rfl

@[simp]
theorem Proc.incMatchables_log (p : Proc) : p.incMatchables.log = p.log := rfl

@[simp]
theorem Proc.incMatches_log (p : Proc) : p.incMatches.log = p.log := rfl

@[simp]
theorem Proc.resetCounters_log (p : Proc) : p.resetCounters.log = p.log := rfl

/-- A pass over rows none of which matches changes nothing in the store and
issues no update. -/
theorem matchLoop_nomatch (env : Env) (re : Regexp) (id : Int) (rows : List String)
    (hscan : ∀ i, env.scanErr i = none) :
    (∀ x ∈ rows, re x = false) →
    ∀ (i : Nat) (tx : Store) (p : Proc),
      ∃ p', matchLoop env re id i rows tx p = .next tx p' ∧
        p'.nmatches = p.nmatches ∧ p'.matchables = p.matchables + rows.length ∧
        ∀ op ok, (op, ok) ∈ p'.log → (op, ok) ∈ p.log ∨ ∃ j, op = Op.rowsScan j := by
  induction rows with
  | nil =>
    intro _ i tx p
    exact ⟨p, rfl, rfl, rfl, fun op ok h => Or.inl h⟩
  | cons event rows ih =>
    intro hno i tx p
    have hev : re event = false := hno event (List.mem_cons_self _ _)
    obtain ⟨p', hrun, h1, h2, h3⟩ := ih (fun x hx => hno x (List.mem_cons_of_mem _ hx))
      (i + 1) tx (p.call (.rowsScan i) true).incMatchables.setSuffix
    refine ⟨p', ?_, ?_, ?_, ?_⟩
    · unfold matchLoop
      simp only [hscan, hev, Bool.false_eq_true, if_false]
      exact hrun
    · simpa using h1
    · rw [h2]; simp; omega
    · intro op ok hmem
      rcases h3 op ok hmem with h | h
      · simp only [Proc.setSuffix_log, Proc.incMatchables_log, Proc.call_log,
          List.mem_append, List.mem_singleton, Prod.mk.injEq] at h
        rcases h with h | h
        · exact Or.inl h
        · exact Or.inr ⟨i, h.1⟩
      · exact Or.inr h

theorem loadConfig_stop (env : Env) (p : Proc) (e : Exit) (p' : Proc)
    (h : loadConfig env p = .stop e p') :
    p'.log = p.log ∧ e ≠ .returned ∧ (env.nargs ≠ 1 → e.isFailure = true) := by
  unfold loadConfig at h
  split at h
  · next h1 =>
    simp only [Step.stop.injEq] at h
    simp [← h.1, ← h.2, h1]
  · split at h
    · simp only [Step.stop.injEq] at h
      simp [← h.1, ← h.2, Exit.isFailure]
    · split at h
      · simp only [Step.stop.injEq] at h
        simp [← h.1, ← h.2, Exit.isFailure]
      · split at h
        · simp only [Step.stop.injEq] at h
          simp [← h.1, ← h.2, Exit.isFailure]
        · split at h
          · simp only [Step.stop.injEq] at h
            simp [← h.1, ← h.2, Exit.isFailure]
          · split at h
            · simp only [Step.stop.injEq] at h
              simp [← h.1, ← h.2, Exit.isFailure]
            · exact absurd h (by simp)

theorem loadConfig_next (env : Env) (p : Proc) (conn : String) (p' : Proc)
    (h : loadConfig env p = .next conn p') :
    p' = p ∧ env.nargs ≠ 1 := by
  unfold loadConfig at h
  split at h
  · exact absurd h (by simp)
  · next h1 =>
    split at h
    · exact absurd h (by simp)
    · split at h
      · exact absurd h (by simp)
      · split at h
        · exact absurd h (by simp)
        · split at h
          · exact absurd h (by simp)
          · split at h
            · exact absurd h (by simp)
            · simp only [Step.next.injEq] at h
              exact ⟨h.2.symm, h1⟩

theorem readFilter_stop (env : Env) (p : Proc) (e : Exit) (p' : Proc)
    (h : readFilter env p = .stop e p') :
    p'.log = p.log ∧ e ≠ .returned ∧ e.isFailure = true := by
  unfold readFilter at h
  simp only at h
  split at h
  · simp only [Step.stop.injEq] at h
    simp [← h.1, ← h.2, Exit.isFailure]
  · split at h
    · split at h
      · simp only [Step.stop.injEq] at h
        simp [← h.1, ← h.2, Exit.isFailure]
      · exact absurd h (by simp)
    · exact absurd h (by simp)

theorem readFilter_next (env : Env) (p : Proc) (bucketFilter : String) (scanner : Scanner)
    (p' : Proc) (h : readFilter env p = .next (bucketFilter, scanner) p') :
    p'.log = p.log ∧ scanner.fail = env.stdinErr ∧
      ((env.bucketFilter ≠ "" ∧ bucketFilter = env.bucketFilter ∧ scanner.rest = env.stdin) ∨
       (env.bucketFilter = "" ∧ bucketFilter = env.stdin.headD "" ∧
          scanner.rest = env.stdin.tail)) := by
  unfold readFilter at h
  simp only at h
  split at h
  · exact absurd h (by simp)
  · split at h
    · next hf =>
      split at h
      · exact absurd h (by simp)
      · simp only [Step.next.injEq, Prod.mk.injEq] at h
        obtain ⟨⟨h1, h2⟩, h3⟩ := h
        subst h1 h2 h3
        cases hs : env.stdin <;> simp [Scanner.Scan, Scanner.Text, hs, hf]
    · next hf =>
      simp only [Step.next.injEq, Prod.mk.injEq] at h
      obtain ⟨⟨h1, h2⟩, h3⟩ := h
      subst h1 h2 h3
      simp [hf]

theorem String.join_cons_eq (l : String) (ls : List String) :
    String.join (l :: ls) = l ++ String.join ls := by
  have key : ∀ (xs : List String) (acc : String),
      List.foldl (fun r s => r ++ s) acc xs = acc ++ List.foldl (fun r s => r ++ s) "" xs := by
    intro xs
    induction xs with
    | nil => intro acc; simp
    | cons x xs ih =>
      intro acc
      simp only [List.foldl_cons]
      rw [ih (acc ++ x), ih ("" ++ x)]
      simp [String.append_assoc]
  simp only [String.join, List.foldl_cons]
  rw [key ls ("" ++ l)]
  simp

/-- The test text is the lines put end to end, nothing between them. -/
theorem readTest_ok (lines : List String) :
    ∀ (scanner : Scanner) (testThis text : String),
      readTest scanner lines testThis = .ok text →
      text = testThis ++ String.join lines := by
  induction lines with
  | nil =>
    intro scanner testThis text h
    simp only [readTest, Except.ok.injEq] at h
    simp [← h, String.join]
  | cons l ls ih =>
    intro scanner testThis text h
    unfold readTest at h
    simp only at h
    split at h
    · exact absurd h (by simp)
    · rw [ih _ _ _ h, String.join_cons_eq]
      simp [Scanner.Scan, Scanner.Text, String.append_assoc]

theorem validate_stop (env : Env) (bucketFilter : String) (scanner : Scanner) (p : Proc)
    (e : Exit) (p' : Proc) (h : validate env bucketFilter scanner p = .stop e p') :
    p'.log = p.log ∧ e ≠ .returned ∧ e.isFailure = true := by
  unfold validate at h
  split at h
  · simp only [Step.stop.injEq] at h
    simp [← h.1, ← h.2, Exit.isFailure]
  · split at h
    · simp only at h
      split at h
      · simp only [Step.stop.injEq] at h
        simp [← h.1, ← h.2, Exit.isFailure]
      · split at h
        · exact absurd h (by simp)
        · simp only [Step.stop.injEq] at h
          simp [← h.1, ← h.2, Exit.isFailure]
    · exact absurd h (by simp)

theorem validate_next (env : Env) (bucketFilter : String) (scanner : Scanner) (p : Proc)
    (re : Regexp) (p' : Proc) (h : validate env bucketFilter scanner p = .next re p') :
    p'.log = p.log ∧ env.compile bucketFilter = .ok re ∧
      (env.testIt = true → re (String.join scanner.rest) = true) := by
  unfold validate at h
  split at h
  · exact absurd h (by simp)
  · next re' hc =>
    split at h
    · simp only at h
      split at h
      · exact absurd h (by simp)
      · next text ht =>
        split at h
        · next hm =>
          simp only [Step.next.injEq] at h
          obtain ⟨h1, h2⟩ := h
          subst h1 h2
          refine ⟨rfl, hc, fun _ => ?_⟩
          have := readTest_ok _ _ _ _ ht
          simpa [this] using hm
        · exact absurd h (by simp)
    · next ht =>
      simp only [Step.next.injEq] at h
      obtain ⟨h1, h2⟩ := h
      subst h1 h2
      exact ⟨rfl, hc, fun h => absurd h ht⟩
/-! ## The blocks inside the transaction -/

theorem Clean.toNoCommit {p : Proc} (h : Clean p) : NoCommit p :=
  fun x hx => (h x hx).2

theorem Clean.call_ok {p : Proc} (h : Clean p) (op : Op) (hop : op ≠ Op.txCommit) :
    Clean (p.call op true) := by
  intro x hx
  simp only [Proc.call_log, List.mem_append, List.mem_singleton] at hx
  rcases hx with hx | hx
  · exact h x hx
  · subst hx
    exact ⟨rfl, hop⟩

theorem NoCommit.call_any {p : Proc} (h : NoCommit p) (op : Op) (ok : Bool)
    (hop : op ≠ Op.txCommit) : NoCommit (p.call op ok) := by
  intro x hx
  simp only [Proc.call_log, List.mem_append, List.mem_singleton] at hx
  rcases hx with hx | hx
  · exact h x hx
  · subst hx
    exact hop

theorem Clean.of_log_eq {p q : Proc} (h : Clean p) (hlog : q.log = p.log) : Clean q := by
  intro x hx
  rw [hlog] at hx
  exact h x hx

theorem NoCommit.of_same_log {p q : Proc} (h : NoCommit p) (hlog : q.log = p.log) : NoCommit q := by
  intro x hx
  rw [hlog] at hx
  exact h x hx

theorem beginTx_safe (env : Env) (db : Store) (p : Proc) (hp : Clean p) :
    (beginTx env db p).Safe := by
  unfold beginTx
  split
  · exact ⟨rfl, (hp.toNoCommit.call_any _ _ (by simp)).of_same_log rfl⟩
  · exact hp.call_ok _ (by simp)

theorem beginTx_next (env : Env) (db : Store) (p : Proc) (tx : Store) (p' : Proc)
    (h : beginTx env db p = .next tx p') : tx = db := by
  unfold beginTx at h
  split at h
  · exact absurd h (by simp)
  · simp only [Step.next.injEq] at h
    exact h.1.symm

theorem resolveBucket_safe (env : Env) (bucketFilter : String) (tx : Store) (p : Proc)
    (hp : Clean p) : (resolveBucket env bucketFilter tx p).Safe := by
  unfold resolveBucket
  split
  · exact ⟨rfl, (hp.toNoCommit.call_any _ _ (by simp)).of_same_log rfl⟩
  · simp only
    split
    · exact (hp.call_ok _ (by simp)).of_log_eq rfl
    · split
      · exact ⟨rfl, (((hp.call_ok _ (by simp)).toNoCommit).call_any _ _ (by simp)).of_same_log rfl⟩
      · exact ((hp.call_ok _ (by simp)).call_ok _ (by simp)).of_log_eq rfl

theorem resolveBucket_next (env : Env) (bucketFilter : String) (tx : Store) (p : Proc)
    (id : Int) (tx' : Store) (p' : Proc)
    (h : resolveBucket env bucketFilter tx p = .next (id, tx') p') :
    (selectBucketId tx.buckets env.bucketName = some id ∧ tx' = tx) ∨
    (selectBucketId tx.buckets env.bucketName = none ∧ id = env.newId ∧
      tx' = { tx with
        buckets := insertBucket tx.buckets env.newId env.bucketName env.eatIt env.reportIt }) := by
  unfold resolveBucket at h
  split at h
  · exact absurd h (by simp)
  · simp only at h
    split at h
    · next id' hsel =>
      simp only [Step.next.injEq, Prod.mk.injEq] at h
      left
      rw [← h.1.1, ← h.1.2]
      exact ⟨hsel, rfl⟩
    · next hsel =>
      split at h
      · exact absurd h (by simp)
      · simp only [Step.next.injEq, Prod.mk.injEq] at h
        right
        exact ⟨hsel, h.1.1.symm, h.1.2.symm⟩

theorem insertHosts_safe (env : Env) (id : Int) (hosts : List String) :
    ∀ (h : Nat) (tx : Store) (p : Proc), Clean p → (insertHosts env id h hosts tx p).Safe := by
  induction hosts with
  | nil =>
    intro h tx p hp
    exact hp
  | cons host hosts ih =>
    intro h tx p hp
    unfold insertHosts
    split
    · exact ⟨rfl, (hp.toNoCommit.call_any _ _ (by simp)).of_same_log rfl⟩
    · exact ih _ _ _ (hp.call_ok _ (by simp))

theorem registerFilter_safe (env : Env) (bucketFilter : String) (id : Int) (tx : Store)
    (p : Proc) (hp : Clean p) : (registerFilter env bucketFilter id tx p).Safe := by
  have hp2 : Clean (if 0 < env.hostListFlag.length then
      p.print (".... but only for " ++ ", ".intercalate env.hostListFlag) else p) := by
    split
    · exact hp.of_log_eq rfl
    · exact hp
  unfold registerFilter
  simp only
  split
  · exact ⟨rfl, (hp2.toNoCommit.call_any _ _ (by simp)).of_same_log rfl⟩
  · exact insertHosts_safe _ _ _ _ _ _ (hp2.call_ok _ (by simp))

theorem matchLoop_safe (env : Env) (re : Regexp) (id : Int) (rows : List String) :
    ∀ (i : Nat) (tx : Store) (p : Proc), Clean p → (matchLoop env re id i rows tx p).Safe := by
  induction rows with
  | nil =>
    intro i tx p hp
    exact hp
  | cons event rows ih =>
    intro i tx p hp
    unfold matchLoop
    split
    · exact ⟨rfl, (hp.toNoCommit.call_any _ _ (by simp)).of_same_log rfl⟩
    · simp only
      split
      · split
        · exact ⟨rfl, ((((hp.call_ok (.rowsScan i) (by simp)).of_log_eq
            (q := (p.call (.rowsScan i) true).incMatchables.incMatches) rfl).toNoCommit).call_any
              _ _ (by simp)).of_same_log rfl⟩
        · exact ih _ _ _ ((((hp.call_ok (.rowsScan i) (by simp)).of_log_eq
            (q := (p.call (.rowsScan i) true).incMatchables.incMatches) rfl).call_ok
              _ (by simp)).of_log_eq rfl)
      · exact ih _ _ _ ((hp.call_ok (.rowsScan i) (by simp)).of_log_eq rfl)

theorem backfill_safe (env : Env) (re : Regexp) (id : Int) (db tx : Store) (p : Proc)
    (hp : Clean p) : (backfill env re id db tx p).Safe := by
  unfold backfill
  split
  · split
    · exact ⟨rfl, (hp.toNoCommit.call_any _ _ (by simp)).of_same_log rfl⟩
    · simp only
      have hloop := matchLoop_safe env re id (cursorRows env db) 0 tx
        ((p.call .selectEvents true).print "").resetCounters
        ((hp.call_ok .selectEvents (by simp)).of_log_eq rfl)
      split
      · next e p' hrun =>
        rw [hrun] at hloop
        exact hloop
      · next tx' p' hrun =>
        rw [hrun] at hloop
        split
        · exact ⟨rfl, (hloop.toNoCommit.call_any _ _ (by simp)).of_same_log rfl⟩
        · exact (hloop.call_ok _ (by simp)).of_log_eq rfl
  · exact hp
/-! ## The whole run -/

/-- The three ways a run can go: it ends before the transaction is opened,
having issued no database step; it ends inside the transaction with
`os.Exit(3)` before any commit; or every block returned and it reaches
`tx.Commit()` with all steps so far successful. -/
theorem main_cases (env : Env) (db : Store) :
    (∃ e p, main env db = { exit := e, proc := p, db := db } ∧ p.log = [] ∧
      e ≠ .returned ∧ (env.nargs ≠ 1 → e.isFailure = true)) ∨
    (∃ conn p1 bucketFilter scanner p2 re p3,
      loadConfig env Proc.init = .next conn p1 ∧
      readFilter env p1 = .next (bucketFilter, scanner) p2 ∧
      validate env bucketFilter scanner p2 = .next re p3 ∧
      ((∃ p, main env db = { exit := .code 3, proc := p, db := db } ∧ NoCommit p) ∨
       (∃ p4 id tx1 p5 tx2 p6 tx3 p7,
        beginTx env db p3 = .next db p4 ∧
        resolveBucket env bucketFilter db p4 = .next (id, tx1) p5 ∧
        registerFilter env bucketFilter id tx1 p5 = .next tx2 p6 ∧
        backfill env re id db tx2 p6 = .next tx3 p7 ∧
        Clean p7 ∧ main env db = commitTx env db tx3 p7))) := by
  unfold main
  cases h1 : loadConfig env Proc.init with
  | stop e p =>
    obtain ⟨hl, he, hf⟩ := loadConfig_stop _ _ _ _ h1
    exact Or.inl ⟨e, p, rfl, hl, he, hf⟩
  | next conn p1 =>
    obtain ⟨hp1, _⟩ := loadConfig_next _ _ _ _ h1
    have hl1 : p1.log = [] := by rw [hp1]; rfl
    dsimp only
    cases h2 : readFilter env p1 with
    | stop e p =>
      obtain ⟨hl, he, hf⟩ := readFilter_stop _ _ _ _ h2
      exact Or.inl ⟨e, p, rfl, by rw [hl, hl1], he, fun _ => hf⟩
    | next fs p2 =>
      obtain ⟨bucketFilter, scanner⟩ := fs
      have hl2 : p2.log = [] := by rw [(readFilter_next _ _ _ _ _ h2).1, hl1]
      dsimp only
      cases h3 : validate env bucketFilter scanner p2 with
      | stop e p =>
        obtain ⟨hl, he, hf⟩ := validate_stop _ _ _ _ _ _ h3
        exact Or.inl ⟨e, p, rfl, by rw [hl, hl2], he, fun _ => hf⟩
      | next re p3 =>
        have hl3 : p3.log = [] := by rw [(validate_next _ _ _ _ _ _ h3).1, hl2]
        have hc3 : Clean p3 := by
          intro x hx
          rw [hl3] at hx
          exact absurd hx (List.not_mem_nil _)
        dsimp only
        have s4 := beginTx_safe env db p3 hc3
        cases h4 : beginTx env db p3 with
        | stop e p =>
          rw [h4] at s4
          obtain ⟨he, hn⟩ := s4
          subst he
          exact Or.inr ⟨conn, p1, bucketFilter, scanner, p2, re, p3, rfl, h2, h3, Or.inl ⟨p, rfl, hn⟩⟩
        | next tx0 p4 =>
          rw [h4] at s4
          have htx0 := beginTx_next _ _ _ _ _ h4
          subst htx0
          dsimp only
          have s5 := resolveBucket_safe env bucketFilter tx0 p4 s4
          cases h5 : resolveBucket env bucketFilter tx0 p4 with
          | stop e p =>
            rw [h5] at s5
            obtain ⟨he, hn⟩ := s5
            subst he
            exact Or.inr ⟨conn, p1, bucketFilter, scanner, p2, re, p3, rfl, h2, h3, Or.inl ⟨p, rfl, hn⟩⟩
          | next it p5 =>
            obtain ⟨id, tx1⟩ := it
            rw [h5] at s5
            dsimp only
            have s6 := registerFilter_safe env bucketFilter id tx1 p5 s5
            cases h6 : registerFilter env bucketFilter id tx1 p5 with
            | stop e p =>
              rw [h6] at s6
              obtain ⟨he, hn⟩ := s6
              subst he
              exact Or.inr ⟨conn, p1, bucketFilter, scanner, p2, re, p3, rfl, h2, h3, Or.inl ⟨p, rfl, hn⟩⟩
            | next tx2 p6 =>
              rw [h6] at s6
              dsimp only
              have s7 := backfill_safe env re id tx0 tx2 p6 s6
              cases h7 : backfill env re id tx0 tx2 p6 with
              | stop e p =>
                rw [h7] at s7
                obtain ⟨he, hn⟩ := s7
                subst he
                exact Or.inr ⟨conn, p1, bucketFilter, scanner, p2, re, p3, rfl, h2, h3, Or.inl ⟨p, rfl, hn⟩⟩
              | next tx3 p7 =>
                rw [h7] at s7
                exact Or.inr ⟨conn, p1, bucketFilter, scanner, p2, re, p3, rfl, h2, h3,
                  Or.inr ⟨p4, id, tx1, p5, tx2, p6, tx3, p7, h4, h5, h6, h7, s7, rfl⟩⟩

/-- C2. Atomicity.  A run that does not reach the end of `main` leaves the
committed store exactly as it found it; a run in which any database step
failed (transaction start, bucket lookup, bucket insert, filter insert, host
insert, events query, cursor read, event update, cursor error or commit)
ends with `os.Exit(3)` and leaves the committed store as it found it; and
when a commit was attempted it is the last step of the run and every database
step before it succeeded. -/
theorem main_atomic (env : Env) (db : Store) :
    ((main env db).exit ≠ .returned → (main env db).db = db) ∧
    (∀ op, (op, false) ∈ (main env db).proc.log →
      (main env db).exit = .code 3 ∧ (main env db).db = db) ∧
    (∀ ok, (Op.txCommit, ok) ∈ (main env db).proc.log →
      ∃ pre, (main env db).proc.log = pre ++ [(Op.txCommit, ok)] ∧
        ∀ x ∈ pre, x.2 = true ∧ x.1 ≠ Op.txCommit) := by
  rcases main_cases env db with ⟨e, p, hm, hl, _, _⟩ |
    ⟨_, _, _, _, _, _, _, _, _, _, ⟨p, hm, hn⟩ | ⟨_, _, _, _, _, _, tx3, p7, _, _, _, _, hc, hm⟩⟩
  · rw [hm]
    simp [hl]
  · rw [hm]
    refine ⟨fun _ => rfl, fun _ _ => ⟨rfl, rfl⟩, ?_⟩
    intro ok hmem
    exact absurd rfl (hn _ hmem)
  · rw [hm]
    unfold commitTx
    cases hce : env.commitErr with
    | some err =>
      refine ⟨fun _ => rfl, fun _ _ => ⟨rfl, rfl⟩, ?_⟩
      intro ok hmem
      simp only [Proc.print_log, Proc.call_log, List.mem_append, List.mem_singleton,
        Prod.mk.injEq] at hmem
      rcases hmem with hmem | hmem
      · exact absurd rfl (hc _ hmem).2
      · exact ⟨p7.log, by simp [hmem.2], hc⟩
    | none =>
      refine ⟨fun h => absurd rfl h, ?_, ?_⟩
      · intro op hmem
        simp only [Proc.print_log, Proc.call_log, List.mem_append, List.mem_singleton,
          Prod.mk.injEq] at hmem
        rcases hmem with hmem | hmem
        · exact absurd (hc _ hmem).1 (by simp)
        · exact absurd hmem.2 (by simp)
      · intro ok hmem
        simp only [Proc.print_log, Proc.call_log, List.mem_append, List.mem_singleton,
          Prod.mk.injEq] at hmem
        rcases hmem with hmem | hmem
        · exact absurd rfl (hc _ hmem).2
        · exact ⟨p7.log, by simp [hmem.2], hc⟩
/-- C4. Validation comes first.  Take a run that was given arguments; let `filter` be
the filter it uses (the `-bucketFilter` flag, or the first line of standard
input when the flag is empty) and `lines` the lines of standard input left
for the self-test.  If the filter does not compile, or if `-testData` is set
and the compiled filter does not match the lines put end to end with nothing
between them, the run ends with a failure (a non-zero `os.Exit`, or a panic)
without having issued one database step, not even the start of a
transaction, and the committed store is as it was. -/
theorem validation_rejects (env : Env) (db : Store) (filter : String) (lines : List String)
    (hargs : env.nargs ≠ 1)
    (hinput : (env.bucketFilter ≠ "" ∧ filter = env.bucketFilter ∧ lines = env.stdin) ∨
      (env.bucketFilter = "" ∧ filter = env.stdin.headD "" ∧ lines = env.stdin.tail))
    (hbad : (∃ err, env.compile filter = .error err) ∨
      (env.testIt = true ∧ ∃ re, env.compile filter = .ok re ∧
        re (String.join lines) = false)) :
    (main env db).proc.log = [] ∧ (main env db).db = db ∧
      (main env db).exit.isFailure = true := by
  rcases main_cases env db with ⟨e, p, hm, hl, _, hf⟩ |
    ⟨_, _, bucketFilter, scanner, _, re, _, _, h2, h3, _⟩
  · rw [hm]
    exact ⟨hl, rfl, hf hargs⟩
  · exfalso
    obtain ⟨_, hfail, hrest⟩ := readFilter_next _ _ _ _ _ h2
    obtain ⟨_, hcomp, htest⟩ := validate_next _ _ _ _ _ _ h3
    have hfl : bucketFilter = filter ∧ scanner.rest = lines := by
      rcases hinput with ⟨ha, hb, hc⟩ | ⟨ha, hb, hc⟩ <;>
        rcases hrest with ⟨ha', hb', hc'⟩ | ⟨ha', hb', hc'⟩
      · exact ⟨by rw [hb, hb'], by rw [hc, hc']⟩
      · exact absurd ha' ha
      · exact absurd ha ha'
      · exact ⟨by rw [hb, hb'], by rw [hc, hc']⟩
    rw [hfl.1] at hcomp
    rw [hfl.2] at htest
    rcases hbad with ⟨err, hb⟩ | ⟨ht, re', hb, hm⟩
    · rw [hb] at hcomp
      exact absurd hcomp (by simp)
    · rw [hb] at hcomp
      simp only [Except.ok.injEq] at hcomp
      subst hcomp
      rw [htest ht] at hm
      exact absurd hm (by simp)
/-! ## Scenarios -/

theorem backfill_counters (env : Env) (re : Regexp) (id : Int) (db tx : Store) (p : Proc)
    (tx' : Store) (p' : Proc) (happly : env.apply = true)
    (h : backfill env re id db tx p = .next tx' p') :
    p'.nmatches = (cursorRows env db).countP re ∧
      p'.matchables = (cursorRows env db).length ∧
      p'.suffixes.getLast? = some (suffixText p'.nmatches p'.matchables) ∧
      env.rowsErr = none := by
  unfold backfill at h
  simp only [happly, if_true] at h
  cases hq : env.queryErr with
  | some err => simp [hq] at h
  | none =>
    simp only [hq] at h
    split at h
    · exact absurd h (by simp)
    · next tx1 p1 hloop =>
      cases hr : env.rowsErr with
      | some ke => simp [hr] at h
      | none =>
        simp only [hr, Step.next.injEq] at h
        obtain ⟨_, _, _, _, hnext⟩ := matchLoop_suffixes env re id (cursorRows env db) 0 tx
          ((p.call .selectEvents true).print "").resetCounters
        obtain ⟨_, h2, h3⟩ := hnext _ _ hloop
        rw [← h.2]
        simp [h2, h3]

/-- C8 (amended). The scenario: no bucket named "errors", exactly three
events, all unclassified, with payloads "ERROR: disk full", "INFO: ok" and
"ERROR: oom"; a successful run with bucket name "errors", filter `ERROR` (a
pattern that matches the two ERROR payloads and not "INFO: ok") and `-apply`.
The run appends one bucket named "errors" with the id the store gave it, sets
the bucket id of the two ERROR events to that id, leaves "INFO: ok"
unclassified, ends with `matches = 2` and `matchables = 3`, and the last text
it gives the spinner is " (filter matched 2 of 3)". -/
theorem scenario_errors (env : Env) (db : Store) (re : Regexp)
    (hname : env.bucketName = "errors")
    (hfilter : env.bucketFilter = "ERROR")
    (happly : env.apply = true)
    (hcompile : env.compile "ERROR" = .ok re)
    (hm1 : re "ERROR: disk full" = true)
    (hm2 : re "INFO: ok" = false)
    (hm3 : re "ERROR: oom" = true)
    (hbuckets : ∀ b ∈ db.buckets, b.name ≠ "errors")
    (hevents : db.events = [{ event := "ERROR: disk full", bucket_id := none },
      { event := "INFO: ok", bucket_id := none },
      { event := "ERROR: oom", bucket_id := none }])
    (horder : (env.order (selectDistinctUnclassified db.events)).Perm
      (selectDistinctUnclassified db.events))
    (hsuccess : (main env db).exit = .returned) :
    (main env db).db.buckets = db.buckets ++
        [{ id := env.newId, name := "errors", eat_it := env.eatIt, report_it := env.reportIt }] ∧
      (main env db).db.events = [{ event := "ERROR: disk full", bucket_id := some env.newId },
        { event := "INFO: ok", bucket_id := none },
        { event := "ERROR: oom", bucket_id := some env.newId }] ∧
      (main env db).proc.nmatches = 2 ∧ (main env db).proc.matchables = 3 ∧
      (main env db).proc.suffixes.getLast? = some " (filter matched 2 of 3)" := by
  rcases main_cases env db with ⟨e, p, hm, _, he, _⟩ |
    ⟨_, _, bucketFilter, scanner, _, re', _, _, h2, h3,
      ⟨p, hm, _⟩ | ⟨p4, id, tx1, p5, tx2, p6, tx3, p7, _, h5, h6, h7, _, hm⟩⟩
  · rw [hm] at hsuccess
    exact absurd hsuccess he
  · rw [hm] at hsuccess
    exact absurd hsuccess (by simp)
  · -- the filter and the compiled pattern
    have hbf : bucketFilter = "ERROR" := by
      rcases (readFilter_next _ _ _ _ _ h2).2.2 with ⟨_, hb, _⟩ | ⟨ha, _, _⟩
      · rw [hb, hfilter]
      · rw [hfilter] at ha
        exact absurd ha (by decide)
    subst hbf
    have hre : re' = re := by
      have := (validate_next _ _ _ _ _ _ h3).2.1
      rw [hcompile] at this
      simp only [Except.ok.injEq] at this
      exact this.symm
    subst hre
    -- the bucket is made
    have hsel : selectBucketId db.buckets env.bucketName = none := by
      rw [selectBucketId_none_iff, hname]
      exact hbuckets
    have hres : id = env.newId ∧ tx1 = { db with
        buckets := insertBucket db.buckets env.newId env.bucketName env.eatIt env.reportIt } := by
      rcases resolveBucket_next _ _ _ _ _ _ _ h5 with ⟨hs, _⟩ | ⟨_, hi, ht⟩
      · rw [hsel] at hs
        exact absurd hs (by simp)
      · exact ⟨hi, ht⟩
    obtain ⟨hid, htx1⟩ := hres
    subst hid
    have htx2 := registerFilter_next env "ERROR" env.newId tx1 p5 tx2 p6 h6
    have hev2 : tx2.events = db.events := by rw [htx2, htx1]
    have hb2 : tx2.buckets =
        db.buckets ++ [Bucket.mk env.newId "errors" env.eatIt env.reportIt] := by
      rw [htx2, htx1, ← hname]
      rfl
    have htx3 := backfill_next env re' env.newId db tx2 p6 happly hev2 horder tx3 p7 h7
    obtain ⟨hc1, hc2, hc3, hrows⟩ := backfill_counters env re' env.newId db tx2 p6 tx3 p7 happly h7
    have hsel3 : selectDistinctUnclassified db.events =
        ["ERROR: disk full", "INFO: ok", "ERROR: oom"] := by
      rw [hevents]
      decide
    have hcur : (cursorRows env db).Perm ["ERROR: disk full", "INFO: ok", "ERROR: oom"] := by
      simp only [cursorRows, hrows]
      rw [hsel3] at horder
      rw [hsel3]
      exact horder
    have hcount : (cursorRows env db).countP re' = 2 := by
      rw [hcur.countP_eq]
      simp [List.countP_cons, hm1, hm2, hm3]
    have hlen : (cursorRows env db).length = 3 := by
      rw [hcur.length_eq]
      rfl
    rw [hcount] at hc1
    rw [hlen] at hc2
    rw [hc1, hc2] at hc3
    -- the commit
    rw [hm] at hsuccess ⊢
    unfold commitTx at hsuccess ⊢
    cases hce : env.commitErr with
    | some err =>
      rw [hce] at hsuccess
      exact absurd hsuccess (by simp)
    | none =>
      simp only
      refine ⟨?_, ?_, hc1, hc2, ?_⟩
      · rw [htx3]
        exact hb2
      · rw [htx3, hevents]
        simp [hm1, hm2, hm3]
      · rw [Proc.print_suffixes, Proc.call_suffixes, hc3]
        decide
/-! ## The theorems at concrete runs -/

theorem hostList.Set_eq (list : List String) (value : String) :
    hostList.Set list value = list ++ splitComma value := by
  unfold hostList.Set
  generalize splitComma value = pieces
  induction pieces generalizing list with
  | nil => simp
  | cons x xs ih => simp [List.foldl_cons, ih]

/-- The backfill of the scenario: the two ERROR events get bucket id 1. -/
theorem backfill_correct_witness :
    ∃ p', backfill scenarioEnv (literalMatch "ERROR") 1 scenarioDb scenarioDb Proc.init =
      .next { scenarioDb with events := scenarioDone.events } p' := by
  have h := backfill_correct scenarioEnv (literalMatch "ERROR") 1 scenarioDb scenarioDb
    Proc.init rfl rfl (List.Perm.refl _)
  obtain ⟨tx', p', hrun⟩ := h.2 rfl rfl (fun _ => rfl) (fun _ => rfl)
  have htx := h.1 tx' p' hrun
  refine ⟨p', ?_⟩
  rw [hrun, htx]
  rfl

/-- Resolving "errors" twice on the scenario store: the first step makes bucket 1,
the second, with other flags and another filter, finds it. -/
theorem resolveBucket_idempotent_witness :
    ∃ p1' p2', resolveBucket scenarioEnv "ERROR" scenarioDb Proc.init =
        .next (1, { scenarioDb with buckets := scenarioDone.buckets }) p1' ∧
      resolveBucket hostsEnv "WARN" { scenarioDb with buckets := scenarioDone.buckets }
        Proc.init = .next (1, { scenarioDb with buckets := scenarioDone.buckets }) p2' := by
  have h := resolveBucket_idempotent scenarioEnv hostsEnv "ERROR" "WARN" scenarioDb
    Proc.init Proc.init rfl rfl
  obtain ⟨id1, tx1, p1', hrun⟩ := h.1 rfl rfl
  have hid : (id1, tx1) = (1, { scenarioDb with buckets := scenarioDone.buckets }) := by
    have : resolveBucket scenarioEnv "ERROR" scenarioDb Proc.init = .next
        (1, { scenarioDb with buckets := scenarioDone.buckets })
        (((Proc.init.call (.selectBucket "errors") true).call
          (.insertBucket "errors" true true) true).print
          "Making a new bucket called \" errors \"using filter \" ERROR \"...") := by decide
    rw [this] at hrun
    simp only [Step.next.injEq] at hrun
    exact hrun.1.symm
  simp only [Prod.mk.injEq] at hid
  obtain ⟨hid1, htx1⟩ := hid
  subst hid1 htx1
  obtain ⟨p2', h2, _⟩ := h.2 _ _ _ hrun
  exact ⟨p1', p2', hrun, h2⟩

/-- Resolving "errors" with both flags on where the bucket exists with both
flags off: bucket 7 is returned and the store is untouched. -/
theorem resolveBucket_existing_unchanged_witness :
    ∃ p', resolveBucket scenarioEnv "ERROR" existingDb Proc.init = .next (7, existingDb) p' ∧
      p'.log = [(Op.selectBucket "errors", true)] :=
  resolveBucket_existing_unchanged scenarioEnv "ERROR" existingDb Proc.init [] []
    { id := 7, name := "errors", eat_it := false, report_it := false } rfl
    (fun _ h => absurd h (List.not_mem_nil _)) rfl rfl

/-- Registering the filter with `-onlyOn web1,web2`: one filter row and two
`onlyon` rows, in that order. -/
theorem registerFilter_rows_witness :
    ∃ p', registerFilter hostsEnv "ERROR" 1 scenarioDb Proc.init = .next
      { scenarioDb with
        filters := [{ bucket_id := 1, filter := "ERROR", report := true }]
        onlyon := [{ bucket_id := 1, host := "web1" }, { bucket_id := 1, host := "web2" }] }
      p' := by
  have h := registerFilter_rows hostsEnv "ERROR" 1 scenarioDb Proc.init
  obtain ⟨tx', p', hrun⟩ := h.2 rfl (fun _ _ => rfl)
  have htx := (h.1 tx' p' hrun).1
  refine ⟨p', ?_⟩
  rw [hrun, htx]
  congr 1

/-- The matching loop of the scenario: three assignments, with the counters
at (1, 1), (1, 2) and (2, 3). -/
theorem matchLoop_counter_consistency_witness :
    (matchLoop scenarioEnv (literalMatch "ERROR") 1 0
        ["ERROR: disk full", "INFO: ok", "ERROR: oom"] scenarioDb
        Proc.init.resetCounters).proc.emitted = [(1, 1), (1, 2), (2, 3)] ∧
      (matchLoop scenarioEnv (literalMatch "ERROR") 1 0
        ["ERROR: disk full", "INFO: ok", "ERROR: oom"] scenarioDb
        Proc.init.resetCounters).proc.suffixes =
        [" (filter matched 1 of 1)", " (filter matched 1 of 2)", " (filter matched 2 of 3)"] := by
  obtain ⟨k, _, hem, hsuf, _, _, _, hnext⟩ := matchLoop_counter_consistency scenarioEnv
    (literalMatch "ERROR") 1 ["ERROR: disk full", "INFO: ok", "ERROR: oom"] scenarioDb Proc.init
  have hrun : matchLoop scenarioEnv (literalMatch "ERROR") 1 0
      ["ERROR: disk full", "INFO: ok", "ERROR: oom"] scenarioDb Proc.init.resetCounters =
      .next { scenarioDb with events := scenarioDone.events }
        (matchLoop scenarioEnv (literalMatch "ERROR") 1 0
          ["ERROR: disk full", "INFO: ok", "ERROR: oom"] scenarioDb
          Proc.init.resetCounters).proc := by decide
  have hk : k = 3 := (hnext _ _ hrun).1
  subst hk
  rw [hem, hsuf]
  exact ⟨by decide, by decide⟩

/-- The filter `[`: the run fails without a database step. -/
theorem validation_rejects_witness :
    (main badFilterEnv scenarioDb).proc.log = [] ∧ (main badFilterEnv scenarioDb).db = scenarioDb ∧
      (main badFilterEnv scenarioDb).exit.isFailure = true :=
  validation_rejects badFilterEnv scenarioDb "[" ["ERROR: test line"] (by decide)
    (Or.inl ⟨by decide, rfl, rfl⟩) (Or.inl ⟨"error parsing regexp: missing closing ]", rfl⟩)

/-- The scenario run, no step failing. -/
theorem scenario_errors_witness :
    (main scenarioEnv scenarioDb).db.buckets = scenarioDone.buckets ∧
      (main scenarioEnv scenarioDb).db.events = scenarioDone.events ∧
      (main scenarioEnv scenarioDb).proc.nmatches = 2 ∧
      (main scenarioEnv scenarioDb).proc.matchables = 3 ∧
      (main scenarioEnv scenarioDb).proc.suffixes.getLast? = some " (filter matched 2 of 3)" :=
  scenario_errors scenarioEnv scenarioDb (literalMatch "ERROR") rfl rfl rfl rfl
    (by decide) (by decide) (by decide) (fun _ h => absurd h (List.not_mem_nil _)) rfl
    (List.Perm.refl _) (by decide)

/-- A run whose third row fails to update: the first update went through
inside the transaction, the process ends with `os.Exit(3)`, and the committed
store is the one the run started from. -/
theorem main_atomic_witness :
    (Op.updateEvents 1 "ERROR: disk full", true) ∈ (main updateFailEnv scenarioDb).proc.log ∧
      (Op.updateEvents 1 "ERROR: oom", false) ∈ (main updateFailEnv scenarioDb).proc.log ∧
      (main updateFailEnv scenarioDb).exit = .code 3 ∧
      (main updateFailEnv scenarioDb).db = scenarioDb :=
  ⟨by decide, by decide,
    (main_atomic updateFailEnv scenarioDb).2.1 (Op.updateEvents 1 "ERROR: oom") (by decide)⟩

/-- C8 (as stated, refuted). In the scenario run (no bucket named "errors",
the three unclassified events, bucket name "errors", filter `ERROR`, `-apply`,
no step failing) the run succeeds with `matches = 2` and `matchables = 3`, and
the last progress text is " (filter matched 2 of 3)", which is not the text
"(matched 2 of 3)". -/
theorem scenario_report_text :
    scenarioEnv.bucketName = "errors" ∧ scenarioEnv.bucketFilter = "ERROR" ∧
      scenarioEnv.apply = true ∧ selectBucketId scenarioDb.buckets "errors" = none ∧
      (main scenarioEnv scenarioDb).exit = .returned ∧
      (main scenarioEnv scenarioDb).db = scenarioDone ∧
      (main scenarioEnv scenarioDb).proc.nmatches = 2 ∧
      (main scenarioEnv scenarioDb).proc.matchables = 3 ∧
      (main scenarioEnv scenarioDb).proc.suffixes.getLast? ≠ some "(matched 2 of 3)" := by
  decide

/-- C9 (the code at the failing input). A configuration file that opens and
holds `{}` decodes to an empty `DBConn`; the run then ends in the run-time
panic of `configuration.DBConn[0]`, index out of range, having printed
nothing: there is no diagnostic of its own and no `os.Exit`. -/
theorem main_empty_DBConn_panics :
    emptyConfigEnv.openErr = none ∧
      emptyConfigEnv.configuration = some { DBConn := [] } ∧
      main emptyConfigEnv scenarioDb =
        { exit := .panic "runtime error: index out of range [0] with length 0"
          proc := Proc.init
          db := scenarioDb } := by
  decide

/-- A read error after a complete test line is not seen by the loop over the
test lines: the run goes on to the self-test and ends with `os.Exit(4)`. -/
theorem main_read_error_after_line :
    (main readErrorEnv scenarioDb).exit = .code 4 ∧ (main readErrorEnv scenarioDb).proc.log = [] := by
  decide

/-- A read error inside the test line is seen by the loop: `os.Exit(2)`. -/
theorem main_read_error_in_line :
    (main cutLineEnv scenarioDb).exit = .code 2 ∧ (main cutLineEnv scenarioDb).proc.log = [] := by
  decide

/-- A read error in place of the filter line is reported: `os.Exit(2)`. -/
theorem main_read_error_no_filter :
    (main noFilterEnv scenarioDb).exit = .code 2 ∧
      (main noFilterEnv scenarioDb).proc.out =
        ["I need a bucket filter, so give me one now: ",
          "couldn't read a filter from stdin read error"] := by
  decide

end Import
